import Mathlib

/-!
Verification development for the demo-bot market-structure engines.

The Python sources are shallowly embedded:
* `decimal.Decimal` and Python `float` arithmetic are modelled by exact
  rationals (`ℚ`); the spec mandates exact decimal threshold semantics.
* `datetime` timestamps used only for ordering/arithmetic are modelled as
  rational seconds; `timedelta.total_seconds()` becomes subtraction.
* Python lists are Lean `List`s; `range(a, b, st)` is `pyRange`.
* a call that can raise is modelled with `Except`/`Option`.
-/

/-- Python `range(a, b, step)` for a natural start and step and an integer
stop (a negative stop yields the empty range, as in Python). -/
def pyRange (a : ℕ) (b : ℤ) (st : ℕ) : List ℕ :=
  List.range' a (((b - a + st - 1).ediv st).toNat) st

/-- Maximum of a list of rationals (`max(...)` in Python; 0 for an empty
list, which the sources never pass). -/
def listMax (l : List ℚ) : ℚ :=
  match l with
  | [] => 0
  | x :: xs => xs.foldl max x

/-- Minimum of a list of rationals. -/
def listMin (l : List ℚ) : ℚ :=
  match l with
  | [] => 0
  | x :: xs => xs.foldl min x

/-- `src/domain/entities/candle.py` — immutable OHLCV record.  Prices and
volume are exact decimals, modelled as rationals; the timestamp is modelled
as rational seconds (engines only ever order and subtract timestamps). -/
structure Candle where
  symbol : String
  timeframe : String
  timestamp : ℚ
  open_ : ℚ
  high : ℚ
  low : ℚ
  close : ℚ
  volume : ℚ
deriving DecidableEq, Repr

def defaultCandle : Candle := ⟨"", "", 0, 0, 0, 0, 0, 0⟩

namespace LiqModels

/-- `ZoneType` from `src/domain/indicators/liquidity/models.py`. -/
inductive ZoneType
  | ACCUMULATION
  | DISTRIBUTION
deriving DecidableEq, Repr

/-- `LiquidityEventDirection` from `models.py`. -/
inductive LiquidityEventDirection
  | ABOVE
  | BELOW
deriving DecidableEq, Repr

/-- `LiquiditySweep` from `models.py`. -/
structure LiquiditySweep where
  start_time : ℚ
  end_time : ℚ
  direction : LiquidityEventDirection
  penetration_percent : ℚ
  candle_count : ℕ
deriving DecidableEq, Repr

/-- `RangeBreak` from `models.py`. -/
structure RangeBreak where
  start_time : ℚ
  end_time : ℚ
  start_index : ℕ
  end_index : ℕ
  direction : LiquidityEventDirection
  penetration_percent : ℚ
  candle_count : ℕ
  closes_outside : ℕ
deriving DecidableEq, Repr

/-- `AccumulationZone` from `models.py`. -/
structure AccumulationZone where
  start_time : ℚ
  end_time : ℚ
  high_price : ℚ
  low_price : ℚ
  candle_count : ℕ
  strength : ℚ
  zone_type : ZoneType := .ACCUMULATION
  liquidity_sweeps : List LiquiditySweep := []
  range_break : Option RangeBreak := none
deriving DecidableEq, Repr

/-- `LiquiditySignal` from `models.py`. -/
structure LiquiditySignal where
  accumulation_zones : List AccumulationZone := []
  total_zones : ℕ := 0
  analysis_period_start : Option ℚ := none
  analysis_period_end : Option ℚ := none
deriving DecidableEq, Repr

end LiqModels

namespace LiqInd

open LiqModels

/-- The `LiquidityIndicatorSettings` dataclass defined locally in
`src/domain/indicators/liquidity/liquidity_indicator.py` (the class the
indicator's default constructor uses).  Integer fields are naturals; the
documented bounds make them positive. -/
structure LiquidityIndicatorSettings where
  min_candles_in_zone : ℕ := 25
  max_range_percent : ℚ := 45/10
  min_strength : ℚ := 1/2
  min_boundary_touches : ℕ := 2
  max_zones : ℕ := 5
  min_gap_between_zones : ℕ := 15
  sc_volume_spike_ratio : ℚ := 9/5
  sc_range_spike_ratio : ℚ := 8/5
  min_downtrend_drop_percent : ℚ := 1
  downtrend_lookback : ℕ := 12
  max_candles_sc_to_ar : ℕ := 20
  min_secondary_tests : ℕ := 1
  spring_penetration_atr : ℚ := 7/20
  st_volume_contraction : ℚ := 7/10
deriving DecidableEq, Repr

/-- `LiquidityIndicator._average_range`. -/
def averageRange (window : List Candle) : ℚ :=
  if window = [] then 0
  else (window.map (fun c => c.high - c.low)).sum / window.length

/-- `LiquidityIndicator._average_volume`. -/
def averageVolume (window : List Candle) : ℚ :=
  if window = [] then 0
  else (window.map Candle.volume).sum / window.length

/-- `LiquidityIndicator._has_previous_downtrend`. -/
def hasPreviousDowntrend (s : LiquidityIndicatorSettings) (candles : List Candle)
    (start_idx : ℕ) : Bool :=
  let lookback := s.downtrend_lookback
  let segment :=
    if start_idx < lookback then candles.take lookback
    else (candles.drop (start_idx - lookback)).take lookback
  if segment.length < lookback then false
  else
    let start_close := (segment.headD defaultCandle).close
    let end_close := (segment.getLastD defaultCandle).close
    if start_close = 0 then false
    else
      let drop_percent := ((start_close - end_close) / start_close) * 100
      if drop_percent < s.min_downtrend_drop_percent then false
      else
        let lower_highs := ((segment.zip segment.tail).filter
          (fun p => p.2.high < p.1.high)).length
        let lower_lows := ((segment.zip segment.tail).filter
          (fun p => p.2.low < p.1.low)).length
        decide ((lower_highs : ℚ) ≥ (lookback : ℚ) * (6/10) ∧
          (lower_lows : ℚ) ≥ (lookback : ℚ) * (6/10))

/-- One step of the best-candidate fold in
`LiquidityIndicator._find_selling_climax`. -/
def scStep (s : LiquidityIndicatorSettings) (avg_range avg_volume : ℚ)
    (acc : Option ℕ × ℚ) (p : ℕ × Candle) : Option ℕ × ℚ :=
  let candle := p.2
  let range_size := candle.high - candle.low
  if avg_range = 0 ∨ avg_volume = 0 then acc
  else
    let volume_rat := candle.volume / avg_volume
    let range_rat := range_size / avg_range
    if volume_rat ≥ s.sc_volume_spike_ratio ∧ range_rat ≥ s.sc_range_spike_ratio ∧
        candle.close ≤ candle.open_ then
      let score := volume_rat + range_rat
      match acc.1 with
      | none => (some p.1, score)
      | some _ => if score > acc.2 then (some p.1, score) else acc
    else acc

/-- `LiquidityIndicator._find_selling_climax`. -/
def findSellingClimax (s : LiquidityIndicatorSettings) (window : List Candle)
    (avg_range avg_volume : ℚ) : Option ℕ :=
  (window.enum.foldl (scStep s avg_range avg_volume) (none, 0)).1

/-- `LiquidityIndicator._find_preliminary_support`.  `max(0, sc_idx - 5)` is
natural-number truncated subtraction. -/
def findPreliminarySupport (window : List Candle) (sc_idx : ℕ)
    (avg_range : ℚ) : Option ℕ :=
  if sc_idx = 0 then none
  else
    let base := sc_idx - 5
    let ps_window := (window.drop base).take (sc_idx - base)
    let sc_low := (window.getD sc_idx defaultCandle).low
    (ps_window.enum.foldl
      (fun (acc : Option ℕ × ℚ) p =>
        let candle := p.2
        let distance := |candle.low - sc_low|
        let range_size := candle.high - candle.low
        if range_size ≤ avg_range * (21/20) then
          match acc.1 with
          | none => (some (base + p.1), distance)
          | some _ => if distance > acc.2 then (some (base + p.1), distance) else acc
        else acc)
      (none, 0)).1

/-- `LiquidityIndicator._find_automatic_rally`. -/
def findAutomaticRally (s : LiquidityIndicatorSettings) (window : List Candle)
    (sc_idx : ℕ) (avg_range avg_volume : ℚ) : Option ℕ :=
  let lookahead := min s.max_candles_sc_to_ar (window.length - sc_idx - 1)
  if lookahead = 0 then none
  else
    let ar_slice := (window.drop (sc_idx + 1)).take lookahead
    let sc_low := (window.getD sc_idx defaultCandle).low
    (ar_slice.enum.foldl
      (fun (acc : Option ℕ × ℚ) p =>
        let candle := p.2
        let range_size := candle.high - candle.low
        let range_ok := range_size ≥ avg_range * (4/5)
        let volume_ok := avg_volume = 0 ∨ candle.volume ≥ avg_volume * (4/5)
        let closes_up := candle.close > candle.open_
        let distance_from_sc := candle.high - sc_low
        if range_ok ∧ volume_ok ∧ closes_up ∧ distance_from_sc > acc.2 then
          (some (sc_idx + 1 + p.1), distance_from_sc)
        else acc)
      (none, -1)).1

/-- `LiquidityIndicator._count_secondary_tests`. -/
def countSecondaryTests (s : LiquidityIndicatorSettings) (window : List Candle)
    (ar_idx : ℕ) (support sc_volume : ℚ) : ℕ × List ℕ :=
  let tolerance := (listMax (window.map Candle.high) - listMin (window.map Candle.low)) * (7/20)
  let st_indexes := ((window.drop (ar_idx + 1)).enum.filterMap
    (fun p =>
      let candle := p.2
      let near_support := candle.low ≤ support + tolerance
      let volume_contracts := sc_volume = 0 ∨
        candle.volume ≤ sc_volume * s.st_volume_contraction
      let narrow_body := (candle.high - candle.low) ≤ max (1/10000 : ℚ) tolerance
      if near_support ∧ volume_contracts ∧ narrow_body then some (ar_idx + 1 + p.1)
      else none))
  (st_indexes.length, st_indexes)

/-- `LiquidityIndicator._find_spring`. -/
def findSpring (s : LiquidityIndicatorSettings) (window : List Candle)
    (support avg_range sc_volume : ℚ) (from_idx : ℕ) : Option ℕ :=
  let penetration := avg_range * s.spring_penetration_atr
  if penetration ≤ 0 then none
  else
    ((window.drop from_idx).enum.find?
      (fun p =>
        let candle := p.2
        decide (candle.low < support - penetration ∧ candle.close > support ∧
          (sc_volume = 0 ∨ candle.volume ≤ sc_volume * (13/10))))).map
      (fun p => from_idx + p.1)

/-- `LiquidityIndicator._is_sideways` (defined in the source; the current
Wyckoff pipeline no longer calls it, but the seed-and-grow spec model reuses
its thirds test). -/
def isSideways (window : List Candle) : Bool :=
  if window.length < 6 then false
  else
    let third := window.length / 3
    let start_prices := (window.take third).map Candle.close
    let mid_prices := ((window.drop third).take third).map Candle.close
    let end_prices := (window.drop (2 * third)).map Candle.close
    let start_avg := start_prices.sum / start_prices.length
    let mid_avg := mid_prices.sum / mid_prices.length
    let end_avg := end_prices.sum / end_prices.length
    let overall_avg := (start_avg + mid_avg + end_avg) / 3
    if overall_avg = 0 then false
    else
      let threshold : ℚ := 5/1000
      let start_dev := |start_avg - overall_avg| / overall_avg
      let mid_dev := |mid_avg - overall_avg| / overall_avg
      let end_dev := |end_avg - overall_avg| / overall_avg
      decide (start_dev < threshold ∧ mid_dev < threshold ∧ end_dev < threshold)

/-- `LiquidityIndicator._count_boundary_touches`. -/
def countBoundaryTouches (window : List Candle) (high low : ℚ) : ℕ :=
  let range_size := high - low
  if range_size = 0 then 0
  else
    let touch_threshold := range_size * (3/20)
    let upper_touches := (window.filter (fun c => high - c.high ≤ touch_threshold)).length
    let lower_touches := (window.filter (fun c => c.low - low ≤ touch_threshold)).length
    min upper_touches lower_touches

/-- `LiquidityIndicator._calculate_zone_strength`. -/
def calculateZoneStrength (s : LiquidityIndicatorSettings) (window : List Candle)
    (high_price low_price range_percent : ℚ) (touches sc_idx : ℕ)
    (st_count : ℕ) (spring_idx : Option ℕ) (avg_volume : ℚ) : ℚ :=
  let max_range := s.max_range_percent
  let range_factor := 1 - min (range_percent / max_range) 1
  let range_contribution := range_factor * (1/4)
  let min_candles := s.min_candles_in_zone
  let max_bonus_candles := min_candles * 3
  let candle_factor :=
    min (((window.length : ℚ) - (min_candles : ℚ)) /
      ((max_bonus_candles : ℚ) - (min_candles : ℚ))) 1
  let candle_contribution := max 0 candle_factor * (9/50)
  let min_touches := s.min_boundary_touches
  let max_touches := min_touches * 3
  let touch_factor :=
    min (((touches : ℚ) - (min_touches : ℚ)) /
      ((max_touches : ℚ) - (min_touches : ℚ))) 1
  let touch_contribution := max 0 touch_factor * (1/5)
  let mid_price := (high_price + low_price) / 2
  let deviations := window.map
    (fun c => if mid_price > 0 then |c.close - mid_price| / mid_price else 0)
  let avg_deviation := if deviations = [] then 0 else deviations.sum / deviations.length
  let concentration_factor := 1 - min (avg_deviation * 20) 1
  let concentration_contribution := max 0 concentration_factor * (3/20)
  let sc_volume := (window.getD sc_idx defaultCandle).volume
  let structure_score0 : ℚ :=
    if avg_volume > 0 then min ((sc_volume / avg_volume) / 3) 1 * (3/20) else 0
  let st_factor := min ((st_count : ℚ) / 3) 1
  let structure_score1 := structure_score0 + st_factor * (1/10)
  let structure_score := structure_score1 + (if spring_idx.isSome then (1/20 : ℚ) else 0)
  let structure_contribution := min structure_score (3/10)
  min (range_contribution + candle_contribution + touch_contribution +
    concentration_contribution + structure_contribution) 1

/-- `LiquidityIndicator._analyze_window`. -/
def analyzeWindow (s : LiquidityIndicatorSettings) (candles : List Candle)
    (start_idx end_idx : ℕ) : Option AccumulationZone :=
  let window := (candles.drop start_idx).take (end_idx - start_idx)
  if window.length < s.min_candles_in_zone then none
  else if ¬ hasPreviousDowntrend s candles start_idx then none
  else
    let avg_range := averageRange window
    let avg_volume := averageVolume window
    match findSellingClimax s window avg_range avg_volume with
    | none => none
    | some sc_idx =>
      let ps_idx := findPreliminarySupport window sc_idx avg_range
      match findAutomaticRally s window sc_idx avg_range avg_volume with
      | none => none
      | some ar_idx =>
        let support := (window.getD sc_idx defaultCandle).low
        let resistance := (window.getD ar_idx defaultCandle).high
        if resistance ≤ support then none
        else
          let avg_price := (window.map Candle.close).sum / window.length
          if avg_price = 0 then none
          else
            let range_percent := ((resistance - support) / avg_price) * 100
            if range_percent > s.max_range_percent then none
            else
              let sts := countSecondaryTests s window ar_idx support
                (window.getD sc_idx defaultCandle).volume
              if sts.1 < s.min_secondary_tests then none
              else
                let spring_idx := findSpring s window support avg_range
                  (window.getD sc_idx defaultCandle).volume
                  ((sts.2.min?).getD ar_idx)
                let zone_low := support
                let touches := countBoundaryTouches window resistance zone_low
                if touches < s.min_boundary_touches then none
                else
                  let strength := calculateZoneStrength s window resistance zone_low
                    range_percent touches sc_idx sts.1 spring_idx avg_volume
                  some
                    { start_time :=
                        (window.getD (ps_idx.getD sc_idx) defaultCandle).timestamp
                      end_time :=
                        match spring_idx with
                        | some sp => (window.getD sp defaultCandle).timestamp
                        | none => (window.getLastD defaultCandle).timestamp
                      high_price := resistance
                      low_price := zone_low
                      candle_count := window.length
                      strength := strength
                      zone_type := .ACCUMULATION }

/-- `LiquidityIndicator._detect_accumulation_zones`. -/
def detectAccumulationZones (s : LiquidityIndicatorSettings)
    (candles : List Candle) : List AccumulationZone :=
  let min_window := s.min_candles_in_zone
  let max_window := max min_window (min candles.length (min_window * 4))
  let step := max (min_window / 3) 8
  (pyRange min_window ((max_window : ℤ) + 1) 10).flatMap
    (fun window_size =>
      (pyRange 0 ((candles.length : ℤ) - window_size + 1) step).filterMap
        (fun start_idx => analyzeWindow s candles start_idx (start_idx + window_size)))

/-- One iteration of the merge loop in
`LiquidityIndicator._merge_overlapping_zones`.  The accumulator holds the
`merged` list in reverse, so its head is Python's `merged[-1]`. -/
def mergeStep (s : LiquidityIndicatorSettings) :
    List AccumulationZone → AccumulationZone → List AccumulationZone
  | [], zone => [zone]
  | last :: accTail, zone =>
    if max last.start_time zone.start_time < min last.end_time zone.end_time ∧
        zone.end_time - zone.start_time > 0 ∧
        (min last.end_time zone.end_time - max last.start_time zone.start_time) /
          (zone.end_time - zone.start_time) > 1/2 ∧
        (zone.low_price ≤ last.high_price ∧ zone.high_price ≥ last.low_price) then
      if zone.strength > last.strength then zone :: accTail else last :: accTail
    else if zone.start_time - last.end_time ≥ (s.min_gap_between_zones : ℚ) * 60 ∨
        zone.strength > last.strength * (6/5) then
      zone :: last :: accTail
    else last :: accTail

/-- Stable insertion (ascending by `start_time`) matching the stable Python
`sorted(..., key=lambda z: z.start_time)`. -/
def insertByStart (x : AccumulationZone) : List AccumulationZone → List AccumulationZone
  | [] => [x]
  | a :: l => if a.start_time < x.start_time then a :: insertByStart x l else x :: a :: l

/-- Stable sort ascending by `start_time`. -/
def sortByStart (l : List AccumulationZone) : List AccumulationZone :=
  l.foldr insertByStart []

/-- Stable insertion (descending by `strength`) matching the stable Python
`list.sort(key=lambda z: z.strength, reverse=True)`. -/
def insertByStrengthDesc (x : AccumulationZone) :
    List AccumulationZone → List AccumulationZone
  | [] => [x]
  | a :: l => if a.strength > x.strength then a :: insertByStrengthDesc x l else x :: a :: l

/-- Stable sort descending by `strength`. -/
def sortByStrengthDesc (l : List AccumulationZone) : List AccumulationZone :=
  l.foldr insertByStrengthDesc []

/-- `LiquidityIndicator._merge_overlapping_zones`. -/
def mergeOverlappingZones (s : LiquidityIndicatorSettings)
    (zones : List AccumulationZone) : List AccumulationZone :=
  if zones = [] then []
  else ((sortByStart zones).foldl (mergeStep s) []).reverse

/-- `LiquidityIndicator.analyze`. -/
def analyze (s : LiquidityIndicatorSettings) (candles : List Candle) :
    LiquiditySignal :=
  if candles.length < s.min_candles_in_zone then
    { accumulation_zones := []
      total_zones := 0
      analysis_period_start := (candles.head?).map Candle.timestamp
      analysis_period_end := (candles.getLast?).map Candle.timestamp }
  else
    let raw_zones := detectAccumulationZones s candles
    let merged_zones := mergeOverlappingZones s raw_zones
    let filtered := merged_zones.filter (fun z => z.strength ≥ s.min_strength)
    let top := (sortByStrengthDesc filtered).take s.max_zones
    let final := sortByStart top
    { accumulation_zones := final
      total_zones := final.length
      analysis_period_start := (candles.head?).map Candle.timestamp
      analysis_period_end := (candles.getLast?).map Candle.timestamp }

end LiqInd

/-- The exception a Python attribute lookup on a missing attribute raises. -/
inductive PyError
  | attributeError (attr : String)
  | valueError (msg : String)
deriving DecidableEq, Repr

namespace LiqSettingsPy

open LiqModels

/-- The frozen `LiquidityIndicatorSettings` dataclass from
`src/domain/indicators/liquidity/settings.py` — the class re-exported by
`domain/indicators/liquidity/__init__.py`.  Integer fields are modelled as
`ℤ` because `__post_init__` checks signs explicitly. -/
structure LiquidityIndicatorSettings where
  min_candles_in_zone : ℤ := 25
  max_range_percent : ℚ := 8/10
  min_strength : ℚ := 55/100
  min_boundary_touches : ℤ := 3
  max_zones : ℤ := 5
  min_gap_between_zones : ℤ := 15
  break_invalid_pct : ℚ := 2/10
  break_confirm_candles : ℤ := 2
  sweep_max_duration : ℤ := 5
  max_trend_drift_ratio : ℚ := 6/10
  max_slope_percent : ℚ := 1
deriving DecidableEq, Repr

/-- Construction of the frozen settings class: field assignment followed by
`__post_init__`, whose checks run in source order and raise `ValueError` on
the first violated bound. -/
def mkLiquidityIndicatorSettings (min_candles_in_zone : ℤ) (max_range_percent : ℚ)
    (min_strength : ℚ) (min_boundary_touches max_zones min_gap_between_zones : ℤ)
    (break_invalid_pct : ℚ) (break_confirm_candles sweep_max_duration : ℤ)
    (max_trend_drift_ratio max_slope_percent : ℚ) :
    Except PyError LiquidityIndicatorSettings :=
  if min_candles_in_zone ≤ 0 then
    .error (.valueError "min_candles_in_zone must be greater than zero.")
  else if max_range_percent ≤ 0 then
    .error (.valueError "max_range_percent must be greater than zero.")
  else if ¬ (0 < min_strength ∧ min_strength ≤ 1) then
    .error (.valueError "min_strength must be between 0 and 1.")
  else if min_boundary_touches ≤ 0 then
    .error (.valueError "min_boundary_touches must be greater than zero.")
  else if max_zones ≤ 0 then
    .error (.valueError "max_zones must be greater than zero.")
  else if min_gap_between_zones < 0 then
    .error (.valueError "min_gap_between_zones cannot be negative.")
  else if ¬ (0 < break_invalid_pct ∧ break_invalid_pct < 1) then
    .error (.valueError "break_invalid_pct must be between 0 and 1 (exclusive).")
  else if break_confirm_candles ≤ 0 then
    .error (.valueError "break_confirm_candles must be greater than zero.")
  else if sweep_max_duration ≤ 0 then
    .error (.valueError "sweep_max_duration must be greater than zero.")
  else if ¬ (0 < max_trend_drift_ratio ∧ max_trend_drift_ratio < 2) then
    .error (.valueError "max_trend_drift_ratio must be between 0 and 2 (exclusive).")
  else if ¬ (0 < max_slope_percent ∧ max_slope_percent < 5) then
    .error (.valueError "max_slope_percent must be between 0 and 5 (exclusive).")
  else .ok
    { min_candles_in_zone, max_range_percent, min_strength, min_boundary_touches,
      max_zones, min_gap_between_zones, break_invalid_pct, break_confirm_candles,
      sweep_max_duration, max_trend_drift_ratio, max_slope_percent }

/-- `LiquidityIndicator._analyze_window` when `self._settings` is an instance
of the exported frozen settings class: after the window-length guard it calls
`_has_previous_downtrend`, whose first statement reads
`self._settings.downtrend_lookback` — an attribute the frozen class does not
define — so the call raises `AttributeError`; everything later in the method
is unreachable on this settings type. -/
def analyzeWindowX (s : LiquidityIndicatorSettings) (candles : List Candle)
    (start_idx end_idx : ℕ) : Except PyError (Option AccumulationZone) :=
  let window := (candles.drop start_idx).take (end_idx - start_idx)
  if (window.length : ℤ) < s.min_candles_in_zone then .ok none
  else .error (.attributeError "downtrend_lookback")

/-- `LiquidityIndicator._detect_accumulation_zones` with the exported frozen
settings: the loops are as in the source and the first raising window call
propagates. -/
def detectAccumulationZonesX (s : LiquidityIndicatorSettings)
    (candles : List Candle) : Except PyError (List AccumulationZone) :=
  let min_window := s.min_candles_in_zone.toNat
  let max_window := max min_window (min candles.length (min_window * 4))
  let step := max (min_window / 3) 8
  (pyRange min_window ((max_window : ℤ) + 1) 10).foldlM
    (fun acc (window_size : ℕ) =>
      (pyRange 0 ((candles.length : ℤ) - window_size + 1) step).foldlM
        (fun acc2 (start_idx : ℕ) => do
          let z ← analyzeWindowX s candles start_idx (start_idx + window_size)
          pure (match z with | some zone => acc2 ++ [zone] | none => acc2))
        acc)
    []

/-- `_merge_overlapping_zones` reads only fields the frozen class does have
(`min_gap_between_zones`), so it is embedded as in `LiqInd`. -/
def mergeOverlappingZonesX (s : LiquidityIndicatorSettings)
    (zones : List AccumulationZone) : List AccumulationZone :=
  LiqInd.mergeOverlappingZones
    { min_gap_between_zones := s.min_gap_between_zones.toNat } zones

/-- `LiquidityIndicator.analyze` for an indicator constructed with the
package-exported frozen settings class. -/
def analyzeX (s : LiquidityIndicatorSettings) (candles : List Candle) :
    Except PyError LiquiditySignal :=
  if (candles.length : ℤ) < s.min_candles_in_zone then
    .ok
      { accumulation_zones := []
        total_zones := 0
        analysis_period_start := (candles.head?).map Candle.timestamp
        analysis_period_end := (candles.getLast?).map Candle.timestamp }
  else do
    let raw_zones ← detectAccumulationZonesX s candles
    let merged_zones := mergeOverlappingZonesX s raw_zones
    let filtered := merged_zones.filter (fun z => z.strength ≥ s.min_strength)
    let final := LiqInd.sortByStart
      ((LiqInd.sortByStrengthDesc filtered).take s.max_zones.toNat)
    pure
      { accumulation_zones := final
        total_zones := final.length
        analysis_period_start := (candles.head?).map Candle.timestamp
        analysis_period_end := (candles.getLast?).map Candle.timestamp }

end LiqSettingsPy

namespace SeedGrow

open LiqModels

/-- Modelled from the spec: the settings schema of the seed-and-grow
liquidity engine.  The implementation of this variant is absent from `src/`
(only `src/tests/test_liquidity_breaks.py` exercises it); the field names
and defaults follow the test's constructor call and the exported settings
class. -/
structure LiquidityIndicatorSettings where
  min_candles_in_zone : ℕ := 25
  max_range_percent : ℚ := 8/10
  min_strength : ℚ := 55/100
  min_boundary_touches : ℕ := 3
  max_zones : ℕ := 5
  min_gap_between_zones : ℕ := 15
  seed_candles : ℕ := 25
  break_invalid_pct : ℚ := 2/10
  break_confirm_candles : ℕ := 2
  sweep_tolerance_pct : ℚ := 4/100
deriving DecidableEq, Repr

/-- Zone floor of a candle window (`min(low)`), spec: "zone bounds grow to
include the candle". -/
def zoneLow (w : List Candle) : ℚ := listMin (w.map Candle.low)

/-- Zone ceiling of a candle window (`max(high)`). -/
def zoneHigh (w : List Candle) : ℚ := listMax (w.map Candle.high)

/-- Modelled from the spec: "Range (max high − min low) as a percentage of
average close ≤ `max_range_percent`"; a zero average close is a degenerate
window and is skipped. -/
def rangePercentOk (s : LiquidityIndicatorSettings) (w : List Candle) : Bool :=
  let avg := (w.map Candle.close).sum / w.length
  decide (avg ≠ 0 ∧ ((zoneHigh w - zoneLow w) / avg) * 100 ≤ s.max_range_percent)

/-- Modelled from the spec: boundary-touch confirmation with the 15%-of-height
bands; the thirds "sideways" test is the one written in the source
(`LiqInd.isSideways`). -/
def seedValid (s : LiquidityIndicatorSettings) (w : List Candle) : Bool :=
  decide (zoneLow w < zoneHigh w) && rangePercentOk s w && LiqInd.isSideways w &&
    decide (s.min_boundary_touches ≤
      LiqInd.countBoundaryTouches w (zoneHigh w) (zoneLow w))

/-- Modelled from the spec: "final window must still satisfy
`min_candles_in_zone`, positive range, range-percent ceiling, sideways test,
and boundary-touch minimum". -/
def finalValid (s : LiquidityIndicatorSettings) (w : List Candle) : Bool :=
  decide (s.min_candles_in_zone ≤ w.length) && seedValid s w

/-- Modelled from the spec: forward extension of a validated seed.  State is
the grown zone bounds `lo/hi`, the count of candles absorbed so far, and the
outside-close counter; `origLo/origHi` are the seed bounds ("closes back
inside the original range").  Returns the number of candles the zone keeps
(the breaking candle excluded). -/
def extend (s : LiquidityIndicatorSettings) (origLo origHi : ℚ) :
    ℚ → ℚ → ℕ → ℕ → List Candle → ℕ
  | _, _, count, _, [] => count
  | lo, hi, count, outside, c :: rest =>
    let height := hi - lo
    let pen := max 0 (max ((lo - c.low) / height) ((c.high - hi) / height))
    if pen ≤ s.sweep_tolerance_pct then
      extend s origLo origHi (min lo c.low) (max hi c.high) (count + 1) outside rest
    else if pen < s.break_invalid_pct ∧ origLo ≤ c.close ∧ c.close ≤ origHi then
      extend s origLo origHi (min lo c.low) (max hi c.high) (count + 1) 0 rest
    else
      let outside' := if c.close < origLo ∨ c.close > origHi then outside + 1 else outside
      if s.break_invalid_pct ≤ pen ∨ s.break_confirm_candles ≤ outside' then count
      else extend s origLo origHi (min lo c.low) (max hi c.high) (count + 1) outside' rest

/-- Modelled from the spec: strength as the weighted sum of range tightness
(0.25), candle-count bonus up to 3× the minimum (0.18), boundary-touch bonus
up to 3× the minimum (0.2) and price concentration near the midpoint (0.15),
each clamped, total capped at 1 (the seed-and-grow variant has no Wyckoff
structural term). -/
def zoneStrength (s : LiquidityIndicatorSettings) (w : List Candle) : ℚ :=
  let avg := (w.map Candle.close).sum / w.length
  let range_percent := if avg = 0 then 0 else ((zoneHigh w - zoneLow w) / avg) * 100
  let range_contribution := (1 - min (range_percent / s.max_range_percent) 1) * (1/4)
  let m := (s.min_candles_in_zone : ℚ)
  let candle_contribution :=
    max 0 (min (((w.length : ℚ) - m) / (3 * m - m)) 1) * (9/50)
  let t := (s.min_boundary_touches : ℚ)
  let touches := (LiqInd.countBoundaryTouches w (zoneHigh w) (zoneLow w) : ℚ)
  let touch_contribution := max 0 (min ((touches - t) / (3 * t - t)) 1) * (1/5)
  let mid_price := (zoneHigh w + zoneLow w) / 2
  let deviations := w.map
    (fun c => if mid_price > 0 then |c.close - mid_price| / mid_price else 0)
  let avg_deviation := if deviations = [] then 0 else deviations.sum / deviations.length
  let concentration_contribution := max 0 (1 - min (avg_deviation * 20) 1) * (3/20)
  min (range_contribution + candle_contribution + touch_contribution +
    concentration_contribution) 1

/-- Modelled from the spec: the seed-and-grow scan.  `fuel` only bounds the
recursion (it starts at `candles.length + 1`, which the scan never exhausts
since every step advances the position). -/
def scan (s : LiquidityIndicatorSettings) (candles : List Candle) :
    ℕ → ℕ → List AccumulationZone
  | 0, _ => []
  | fuel + 1, i =>
    if candles.length < i + s.seed_candles then []
    else
      let seed := (candles.drop i).take s.seed_candles
      if seedValid s seed then
        let count := extend s (zoneLow seed) (zoneHigh seed) (zoneLow seed)
          (zoneHigh seed) s.seed_candles 0 (candles.drop (i + s.seed_candles))
        let w := (candles.drop i).take count
        let zs := scan s candles fuel (i + count)
        if finalValid s w then
          { start_time := (w.headD defaultCandle).timestamp
            end_time := (w.getLastD defaultCandle).timestamp
            high_price := zoneHigh w
            low_price := zoneLow w
            candle_count := w.length
            strength := zoneStrength s w
            zone_type := .ACCUMULATION } :: zs
        else zs
      else scan s candles fuel (i + 1)

/-- Modelled from the spec: `analyze` of the seed-and-grow liquidity engine —
scan, filter by `min_strength`, keep the strongest `max_zones`, output in
chronological order; too few candles yields the empty signal with the period
bounds. -/
def analyze (s : LiquidityIndicatorSettings) (candles : List Candle) :
    LiquiditySignal :=
  if candles.length < s.min_candles_in_zone then
    { accumulation_zones := []
      total_zones := 0
      analysis_period_start := (candles.head?).map Candle.timestamp
      analysis_period_end := (candles.getLast?).map Candle.timestamp }
  else
    let zones := scan s candles (candles.length + 1) 0
    let filtered := zones.filter (fun z => z.strength ≥ s.min_strength)
    let final := LiqInd.sortByStart ((LiqInd.sortByStrengthDesc filtered).take s.max_zones)
    { accumulation_zones := final
      total_zones := final.length
      analysis_period_start := (candles.head?).map Candle.timestamp
      analysis_period_end := (candles.getLast?).map Candle.timestamp }

end SeedGrow

/-- `collections.deque(maxlen=m).append`: append on the right, evicting from
the left on overflow. -/
def dequeAppend (m : ℕ) (l : List α) (x : α) : List α :=
  (l ++ [x]).drop ((l.length + 1) - m)

namespace TrendVO

/-- `TrendDirection` from `src/domain/value_objects/trend.py`. -/
inductive TrendDirection
  | UP
  | DOWN
  | SIDEWAYS
  | UNDEFINED
deriving DecidableEq, Repr

/-- The `TrendDirection.undefined()` classmethod. -/
def TrendDirection.undefined : TrendDirection := .UNDEFINED

/-- `SwingType` from `trend.py`. -/
inductive SwingType
  | HIGH
  | LOW
deriving DecidableEq, Repr

/-- `Swing` from `trend.py`. -/
structure Swing where
  index : ℕ
  price : ℚ
  timestamp : ℚ
  type : SwingType
deriving DecidableEq, Repr

def defaultSwing : Swing := ⟨0, 0, 0, .HIGH⟩

/-- `TrendResult` from `trend.py`. -/
structure TrendResult where
  trend : TrendDirection
  confidence : ℚ
  last_swings : List Swing
  reason : String
deriving DecidableEq, Repr

end TrendVO

namespace TrendDetector

open TrendVO

/-- `SwingSettings` from `src/domain/services/trend_detector.py`. -/
structure SwingSettings where
  max_swings : ℕ := 12
  min_price_move : Option ℚ := none
  min_percent_move : ℚ := 5/1000
deriving DecidableEq, Repr

/-- `SwingSettings.is_significant`. -/
def SwingSettings.is_significant (s : SwingSettings) (last_price : Option ℚ)
    (candidate_price : ℚ) : Bool :=
  match last_price with
  | none => true
  | some lp =>
    let price_change := |candidate_price - lp|
    if (match s.min_price_move with
        | some mpm => decide (price_change < mpm)
        | none => false) then false
    else if lp = 0 then true
    else decide (price_change / lp ≥ s.min_percent_move)

/-- Loop state of `TrendDetector._detect_swings`. -/
structure DetectState where
  swings : List Swing
  direction : Option SwingType
  extreme_price : ℚ
  extreme_idx : ℕ
deriving Repr

/-- One loop iteration of `TrendDetector._detect_swings`. -/
def detectStep (s : SwingSettings) (anchor : Candle) (candles : List Candle)
    (st : DetectState) (idx : ℕ) : DetectState :=
  let candle := candles.getD idx defaultCandle
  match st.direction with
  | none =>
    if s.is_significant (some st.extreme_price) candle.close then
      if candle.close > st.extreme_price then
        { swings := st.swings ++ [⟨st.extreme_idx, anchor.low, anchor.timestamp, .LOW⟩]
          direction := some .HIGH
          extreme_price := candle.high
          extreme_idx := idx }
      else if candle.close < st.extreme_price then
        { swings := st.swings ++ [⟨st.extreme_idx, anchor.high, anchor.timestamp, .HIGH⟩]
          direction := some .LOW
          extreme_price := candle.low
          extreme_idx := idx }
      else st
    else st
  | some .HIGH =>
    if candle.high ≥ st.extreme_price then
      { st with extreme_price := candle.high, extreme_idx := idx }
    else if s.is_significant (some st.extreme_price) candle.low then
      { swings := st.swings ++
          [⟨st.extreme_idx, st.extreme_price,
            (candles.getD st.extreme_idx defaultCandle).timestamp, .HIGH⟩]
        direction := some .LOW
        extreme_price := candle.low
        extreme_idx := idx }
    else st
  | some .LOW =>
    if candle.low ≤ st.extreme_price then
      { st with extreme_price := candle.low, extreme_idx := idx }
    else if s.is_significant (some st.extreme_price) candle.high then
      { swings := st.swings ++
          [⟨st.extreme_idx, st.extreme_price,
            (candles.getD st.extreme_idx defaultCandle).timestamp, .LOW⟩]
        direction := some .HIGH
        extreme_price := candle.high
        extreme_idx := idx }
    else st

/-- `TrendDetector._detect_swings`. -/
def detectSwings (s : SwingSettings) (candles : List Candle) : List Swing :=
  if candles.length < 2 then []
  else
    let anchor := candles.headD defaultCandle
    let final := (List.range' 1 (candles.length - 1) 1).foldl
      (detectStep s anchor candles) ⟨[], none, anchor.close, 0⟩
    final.swings ++
      (match final.direction with
       | some d =>
         [⟨final.extreme_idx, final.extreme_price,
           (candles.getD final.extreme_idx defaultCandle).timestamp, d⟩]
       | none => [])

/-- `TrendDetector._register_swing`. -/
def registerSwing (s : SwingSettings) (anchor_price : Option ℚ)
    (mem : List Swing) (sw : Swing) : List Swing :=
  let last_swing := mem.getLast?
  let baseline_price := match last_swing with
    | some ls => some ls.price
    | none => anchor_price
  if ¬ s.is_significant baseline_price sw.price then mem
  else
    match last_swing with
    | some ls =>
      if ls.type = sw.type then
        if (sw.type = .HIGH ∧ sw.price ≥ ls.price) ∨
            (sw.type = .LOW ∧ sw.price ≤ ls.price) then
          mem.dropLast ++ [sw]
        else mem
      else dequeAppend s.max_swings mem sw
    | none => dequeAppend s.max_swings mem sw

/-- `TrendDetector._classify_trend`. -/
def classifyTrend (s : SwingSettings) (mem : List Swing) : TrendDirection :=
  let highs := mem.filter (fun sw => sw.type = .HIGH)
  let lows := mem.filter (fun sw => sw.type = .LOW)
  let fallback : TrendDirection :=
    if highs ≠ [] ∧ lows ≠ [] then
      let last_swing := mem.getLastD defaultSwing
      if last_swing.type = .LOW then
        let last_low := lows.getLastD defaultSwing
        let prior_low := if 2 ≤ lows.length then
          some (lows.getD (lows.length - 2) defaultSwing) else none
        let last_high := highs.getLastD defaultSwing
        if (match prior_low with
            | some p => decide (last_low.price < p.price)
            | none => false) then .DOWN
        else if s.is_significant (some last_high.price) last_low.price ∧
            last_low.price < last_high.price then .DOWN
        else TrendDirection.undefined
      else
        let last_high := highs.getLastD defaultSwing
        let prior_high := if 2 ≤ highs.length then
          some (highs.getD (highs.length - 2) defaultSwing) else none
        let last_low := lows.getLastD defaultSwing
        if (match prior_high with
            | some p => decide (last_high.price > p.price)
            | none => false) then .UP
        else if s.is_significant (some last_low.price) last_high.price ∧
            last_high.price > last_low.price then .UP
        else TrendDirection.undefined
    else TrendDirection.undefined
  if 2 ≤ highs.length ∧ 2 ≤ lows.length then
    let last_highs := highs.drop (highs.length - 2)
    let last_lows := lows.drop (lows.length - 2)
    if (last_highs.getLastD defaultSwing).price > (last_highs.headD defaultSwing).price ∧
        (last_lows.getLastD defaultSwing).price > (last_lows.headD defaultSwing).price then
      .UP
    else if (last_highs.getLastD defaultSwing).price < (last_highs.headD defaultSwing).price ∧
        (last_lows.getLastD defaultSwing).price < (last_lows.headD defaultSwing).price then
      .DOWN
    else fallback
  else fallback

/-- `TrendDetector._compute_confidence`. -/
def computeConfidence (s : SwingSettings) (mem : List Swing)
    (trend : TrendDirection) : ℚ :=
  if trend = TrendDirection.undefined then (if mem ≠ [] then 1/4 else 0)
  else
    let depth_factor := min ((mem.length : ℚ) / ((max s.max_swings 1 : ℕ) : ℚ)) 1
    min 1 (45/100 + (45/100) * depth_factor)

/-- `TrendDetector._build_reason`. -/
def buildReason (mem : List Swing) (trend : TrendDirection) : String :=
  if trend = .UP then "Higher high and higher low detected; upward trend in play."
  else if trend = .DOWN then "Lower high and lower low detected; downward trend in play."
  else if mem = [] then "No valid swings detected; trend undefined."
  else "Swing data present but lacks HH/HL or LH/LL confirmation."

/-- `TrendDetector.analyze`; the mutable `self._swings` deque is passed and
returned explicitly. -/
def analyze (s : SwingSettings) (state : List Swing) (candles : List Candle) :
    TrendResult × List Swing :=
  let anchor_price := (candles.head?).map Candle.close
  let newMem := (detectSwings s candles).foldl (registerSwing s anchor_price) state
  let trend := classifyTrend s newMem
  let confidence := computeConfidence s newMem trend
  let reason := buildReason newMem trend
  ({ trend := trend, confidence := confidence, last_swings := newMem,
     reason := reason }, newMem)

end TrendDetector

namespace TrendInd

/-- `SwingClassification` from `src/domain/indicators/trend/models.py`. -/
inductive SwingClassification
  | HIGHER_HIGH
  | HIGHER_LOW
  | LOWER_LOW
  | LOWER_HIGH
  | SWING_HIGH
  | SWING_LOW
deriving DecidableEq, Repr

/-- The string `.value` of each `SwingClassification` member. -/
def SwingClassification.value : SwingClassification → String
  | .HIGHER_HIGH => "HH"
  | .HIGHER_LOW => "HL"
  | .LOWER_LOW => "LL"
  | .LOWER_HIGH => "LH"
  | .SWING_HIGH => "SH"
  | .SWING_LOW => "SL"

/-- `BOSType` from `models.py`. -/
inductive BOSType
  | BULLISH
  | BEARISH
deriving DecidableEq, Repr

/-- `TrendDirection` from `models.py` (the indicator variant has no
SIDEWAYS member). -/
inductive TrendDirection
  | UP
  | DOWN
  | UNDEFINED
deriving DecidableEq, Repr

/-- `SwingPoint` from `models.py`. -/
structure SwingPoint where
  price : ℚ
  timestamp : ℚ
  index : ℕ
  classification : SwingClassification
deriving DecidableEq, Repr

/-- `SwingPoint.is_high`. -/
def SwingPoint.is_high (sp : SwingPoint) : Bool :=
  match sp.classification with
  | .HIGHER_HIGH | .LOWER_HIGH | .SWING_HIGH => true
  | _ => false

/-- `SwingPoint.is_low`. -/
def SwingPoint.is_low (sp : SwingPoint) : Bool :=
  match sp.classification with
  | .HIGHER_LOW | .LOWER_LOW | .SWING_LOW => true
  | _ => false

def defaultSwingPoint : SwingPoint := ⟨0, 0, 0, .SWING_HIGH⟩

/-- `BreakOfStructure` from `models.py`. -/
structure BreakOfStructure where
  type : BOSType
  broken_swing : SwingPoint
  break_price : ℚ
  break_timestamp : ℚ
  break_index : ℕ
deriving DecidableEq, Repr

/-- `TrendSignal` from `models.py`. -/
structure TrendSignal where
  trend : TrendDirection
  swings : List SwingPoint := []
  last_bos : Option BreakOfStructure := none
  confidence : ℚ := 0
  reason : String := ""
deriving DecidableEq, Repr

/-- `TrendIndicatorSettings` from
`src/domain/indicators/trend/trend_indicator.py`, typed for the engine
(naturals for the count fields, matching their documented positive use). -/
structure TrendIndicatorSettings where
  max_swings : ℕ := 20
  min_percent_move : ℚ := 3/1000
  lookback_bars : ℕ := 3
deriving DecidableEq, Repr

/-- `TrendIndicatorSettings.is_significant_move`. -/
def TrendIndicatorSettings.is_significant_move (s : TrendIndicatorSettings)
    (from_price to_price : ℚ) : Bool :=
  if from_price = 0 then true
  else decide (|to_price - from_price| / from_price ≥ s.min_percent_move)

/-- The `TrendIndicatorSettings` dataclass exactly as written: a plain
(non-frozen) dataclass with raw Python ints, no `__post_init__` and no bound
checks. -/
structure TrendIndicatorSettingsRaw where
  max_swings : ℤ := 20
  min_percent_move : ℚ := 3/1000
  lookback_bars : ℤ := 3
deriving DecidableEq, Repr

/-- Constructing `TrendIndicatorSettings(...)`: plain field assignment; the
dataclass defines no validation, so construction always succeeds. -/
def mkTrendIndicatorSettings (max_swings : ℤ) (min_percent_move : ℚ)
    (lookback_bars : ℤ) : Except PyError TrendIndicatorSettingsRaw :=
  .ok { max_swings := max_swings, min_percent_move := min_percent_move,
        lookback_bars := lookback_bars }

/-- The mutable state of a `TrendIndicator` instance. -/
structure TrendIndicatorState where
  swings : List SwingPoint := []
  last_bos : Option BreakOfStructure := none
  current_trend : TrendDirection := .UNDEFINED
deriving DecidableEq, Repr

/-- `TrendIndicator._detect_swing_points`. -/
def detectSwingPoints (s : TrendIndicatorSettings) (candles : List Candle) :
    List (ℕ × ℚ × Bool) :=
  let lookback := s.lookback_bars
  (pyRange lookback ((candles.length : ℤ) - lookback) 1).flatMap
    (fun i =>
      let candle := candles.getD i defaultCandle
      let is_swing_high := (List.range' 1 lookback 1).all
        (fun j =>
          decide (candle.high ≥ (candles.getD (i - j) defaultCandle).high) &&
          decide (candle.high ≥ (candles.getD (i + j) defaultCandle).high))
      let is_swing_low := (List.range' 1 lookback 1).all
        (fun j =>
          decide (candle.low ≤ (candles.getD (i - j) defaultCandle).low) &&
          decide (candle.low ≤ (candles.getD (i + j) defaultCandle).low))
      (if is_swing_high then [(i, candle.high, true)] else []) ++
      (if is_swing_low then [(i, candle.low, false)] else []))

/-- `TrendIndicator._classify_swings`; `mem` is `self._swings`. -/
def classifySwings (candles : List Candle) (mem : List SwingPoint)
    (raw : List (ℕ × ℚ × Bool)) : List SwingPoint :=
  if raw = [] then []
  else
    let init : Option SwingPoint × Option SwingPoint :=
      mem.foldl
        (fun (acc : Option SwingPoint × Option SwingPoint) sw =>
          if sw.is_high then (some sw, acc.2) else (acc.1, some sw))
        (none, none)
    (raw.foldl
      (fun (acc : List SwingPoint × Option SwingPoint × Option SwingPoint) r =>
        let idx := r.1
        let price := r.2.1
        let is_high := r.2.2
        let timestamp := (candles.getD idx defaultCandle).timestamp
        if is_high then
          let classification := match acc.2.1 with
            | none => SwingClassification.SWING_HIGH
            | some lh => if price > lh.price then .HIGHER_HIGH else .LOWER_HIGH
          let sw : SwingPoint := ⟨price, timestamp, idx, classification⟩
          (acc.1 ++ [sw], some sw, acc.2.2)
        else
          let classification := match acc.2.2 with
            | none => SwingClassification.SWING_LOW
            | some ll => if price > ll.price then .HIGHER_LOW else .LOWER_LOW
          let sw : SwingPoint := ⟨price, timestamp, idx, classification⟩
          (acc.1 ++ [sw], acc.2.1, some sw))
      ([], init.1, init.2)).1

/-- `TrendIndicator._register_swing`. -/
def registerSwing (s : TrendIndicatorSettings) (mem : List SwingPoint)
    (sw : SwingPoint) : List SwingPoint :=
  if mem ≠ [] ∧ (mem.getLastD defaultSwingPoint).index = sw.index then
    let last := mem.getLastD defaultSwingPoint
    if last.is_high = sw.is_high then
      if (sw.is_high ∧ sw.price ≥ last.price) ∨ (sw.is_low ∧ sw.price ≤ last.price) then
        mem.dropLast ++ [sw]
      else mem
    else dequeAppend s.max_swings mem sw
  else dequeAppend s.max_swings mem sw

/-- `TrendIndicator._detect_bos`.  The reversed scan with early break finds
the last swing high and the last swing low of the memory. -/
def detectBos (s : TrendIndicatorSettings) (candles : List Candle)
    (st : TrendIndicatorState) : TrendIndicatorState :=
  if st.swings.length < 2 then st
  else
    let last_swing_high := st.swings.reverse.find? (fun sw => sw.is_high)
    let last_swing_low := st.swings.reverse.find? (fun sw => sw.is_low)
    if candles = [] then st
    else
      let current_candle := candles.getLastD defaultCandle
      let bullish : Option TrendIndicatorState :=
        match last_swing_high with
        | some lh =>
          if current_candle.close > lh.price then
            some
              (if s.is_significant_move lh.price current_candle.close then
                { st with
                  last_bos := some ⟨.BULLISH, lh, current_candle.close,
                    current_candle.timestamp, candles.length - 1⟩
                  current_trend := .UP }
              else st)
          else none
        | none => none
      match bullish with
      | some st' => st'
      | none =>
        match last_swing_low with
        | some ll =>
          if current_candle.close < ll.price then
            if s.is_significant_move ll.price current_candle.close then
              { st with
                last_bos := some ⟨.BEARISH, ll, current_candle.close,
                  current_candle.timestamp, candles.length - 1⟩
                current_trend := .DOWN }
            else st
          else st
        | none => st

/-- `TrendIndicator._determine_trend`. -/
def determineTrend (st : TrendIndicatorState) : TrendDirection :=
  if st.swings.length < 4 then
    (if st.current_trend ≠ .UNDEFINED then st.current_trend else .UNDEFINED)
  else
    let recent_swings := st.swings.drop (st.swings.length - 6)
    let highs := recent_swings.filter (fun sw => sw.is_high)
    let lows := recent_swings.filter (fun sw => sw.is_low)
    let fallback :=
      match st.last_bos with
      | some bos => if bos.type = .BULLISH then TrendDirection.UP else .DOWN
      | none => st.current_trend
    if 2 ≤ highs.length ∧ 2 ≤ lows.length then
      let last_two_highs := highs.drop (highs.length - 2)
      let last_two_lows := lows.drop (lows.length - 2)
      let has_hh :=
        (last_two_highs.getLastD defaultSwingPoint).classification = .HIGHER_HIGH
      let has_hl :=
        (last_two_lows.getLastD defaultSwingPoint).classification = .HIGHER_LOW
      if has_hh ∧ has_hl then .UP
      else
        let has_ll :=
          (last_two_lows.getLastD defaultSwingPoint).classification = .LOWER_LOW
        let has_lh :=
          (last_two_highs.getLastD defaultSwingPoint).classification = .LOWER_HIGH
        if has_ll ∧ has_lh then .DOWN else fallback
    else fallback

/-- `TrendIndicator._calculate_confidence`. -/
def calculateConfidence (s : TrendIndicatorSettings) (st : TrendIndicatorState) : ℚ :=
  if st.swings = [] then 0
  else
    let base_confidence : ℚ := 3/10
    let swing_factor := min ((st.swings.length : ℚ) / (s.max_swings : ℚ)) 1 * (3/10)
    let bos_factor : ℚ := if st.last_bos.isSome then 1/5 else 0
    let structure_factor : ℚ :=
      if 4 ≤ st.swings.length then
        let recent := st.swings.drop (st.swings.length - 4)
        let classifications := recent.map SwingPoint.classification
        let bullish_count := (classifications.filter
          (fun c => c = .HIGHER_HIGH ∨ c = .HIGHER_LOW)).length
        let bearish_count := (classifications.filter
          (fun c => c = .LOWER_LOW ∨ c = .LOWER_HIGH)).length
        if 3 ≤ bullish_count ∨ 3 ≤ bearish_count then 1/5 else 0
      else 0
    min (base_confidence + swing_factor + bos_factor + structure_factor) 1

/-- `TrendIndicator._build_reason` (Decimal interpolation rendered with
`toString` on the rational model). -/
def buildReason (st : TrendIndicatorState) (trend : TrendDirection) : String :=
  if st.swings = [] then "Nenhum swing detectado ainda."
  else if st.swings.length < 4 then
    "Apenas " ++ toString st.swings.length ++ " swings detectados. Aguardando mais dados."
  else
    let recent := st.swings.drop (st.swings.length - 4)
    let structure_desc := String.intercalate " → "
      (recent.map (fun sw => sw.classification.value))
    let r1 := "Estrutura recente: " ++ structure_desc
    let r2 := match st.last_bos with
      | some bos =>
        ["BOS de " ++ (if bos.type = .BULLISH then "alta" else "baixa") ++
          " confirmado em " ++ toString bos.break_price]
      | none => []
    let r3 :=
      if trend = .UP then "Tendência de ALTA: Higher Highs e Higher Lows detectados"
      else if trend = .DOWN then "Tendência de BAIXA: Lower Lows e Lower Highs detectados"
      else "Tendência INDEFINIDA: Estrutura não clara"
    String.intercalate ". " ([r1] ++ r2 ++ [r3]) ++ "."

/-- `TrendIndicator.analyze`; the mutable instance state is passed and
returned explicitly. -/
def analyze (s : TrendIndicatorSettings) (st : TrendIndicatorState)
    (candles : List Candle) : TrendSignal × TrendIndicatorState :=
  if candles.length < s.lookback_bars * 2 + 1 then
    ({ trend := .UNDEFINED, swings := [], last_bos := none, confidence := 0,
       reason := "Dados insuficientes para análise" }, st)
  else
    let raw_swings := detectSwingPoints s candles
    let classified_swings := classifySwings candles st.swings raw_swings
    let st1 := { st with swings := classified_swings.foldl (registerSwing s) st.swings }
    let st2 := detectBos s candles st1
    let trend := determineTrend st2
    let confidence := calculateConfidence s st2
    let reason := buildReason st2 trend
    ({ trend := trend, swings := st2.swings, last_bos := st2.last_bos,
       confidence := confidence, reason := reason }, st2)

end TrendInd

namespace Cache

/-- A finite `decimal.Decimal`: sign flag, coefficient and exponent exactly
as in Python's internal representation (`_sign`, `int(_int)`, `_exp`); the
constructor normalises away leading zeros of the coefficient, so the digit
string of `coeff` is exactly `_int`. -/
structure Dec where
  sign : Bool
  coeff : ℕ
  exp : ℤ
deriving DecidableEq, Repr

/-- The character alphabet of the serialized price and timestamp strings. -/
inductive Ch
  | digit (d : ℕ)
  | dot
  | hyphen
  | plus
  | upperE
  | colon
  | upperT
deriving DecidableEq, Repr

def Ch.isDigit : Ch → Bool
  | .digit _ => true
  | _ => false

def Ch.toDigit : Ch → ℕ
  | .digit d => d
  | _ => 0

/-- Big-endian digit list of a coefficient: Python's `_int` string ("0" for
zero, no leading zeros otherwise). -/
def decDigits (n : ℕ) : List ℕ :=
  if n = 0 then [0] else (Nat.digits 10 n).reverse

/-- Value of a big-endian digit list — what `int(digit_string)` computes. -/
def valBE (l : List ℕ) : ℕ :=
  Nat.ofDigits 10 l.reverse

/-- `Decimal.__str__` for a finite non-negative value, following CPython's
algorithm (`leftdigits`/`dotplace`, positional when `exp <= 0` and the
adjusted exponent is above -6, scientific with `E%+d` otherwise). -/
def renderUnsigned (c : ℕ) (e : ℤ) : List Ch :=
  let ds := decDigits c
  let leftdigits : ℤ := e + ds.length
  let dotplace : ℤ := if e ≤ 0 ∧ leftdigits > -6 then leftdigits else 1
  let intpart : List ℕ :=
    if dotplace ≤ 0 then [0]
    else if dotplace ≥ (ds.length : ℤ) then
      ds ++ List.replicate (dotplace - ds.length).toNat 0
    else ds.take dotplace.toNat
  let fracpart : List Ch :=
    if dotplace ≤ 0 then
      Ch.dot :: (List.replicate (-dotplace).toNat 0 ++ ds).map Ch.digit
    else if dotplace ≥ (ds.length : ℤ) then []
    else Ch.dot :: (ds.drop dotplace.toNat).map Ch.digit
  let exppart : List Ch :=
    if leftdigits = dotplace then []
    else
      Ch.upperE :: (if 0 ≤ leftdigits - dotplace then [Ch.plus] else [Ch.hyphen]) ++
        (decDigits (leftdigits - dotplace).natAbs).map Ch.digit
  intpart.map Ch.digit ++ fracpart ++ exppart

/-- `str(candle.open)` etc. — `Decimal.__str__` with the sign prefix. -/
def renderDec (d : Dec) : List Ch :=
  (if d.sign then [Ch.hyphen] else []) ++ renderUnsigned d.coeff d.exp

/-- Exponent suffix parser: accepts `E[+-]?digits` (or nothing), the finite
part of the numeric grammar of the `Decimal` constructor. -/
def parseExpSuffix (l : List Ch) : Option ℤ :=
  match l with
  | [] => some 0
  | Ch.upperE :: rest =>
    let signedRest : Bool × List Ch :=
      match rest with
      | Ch.plus :: r => (false, r)
      | Ch.hyphen :: r => (true, r)
      | r => (false, r)
    let ds := signedRest.2
    if ds ≠ [] ∧ ds.all Ch.isDigit then
      let v : ℤ := valBE (ds.map Ch.toDigit)
      some (if signedRest.1 then -v else v)
    else none
  | _ => none

/-- Digits-and-fraction parser for the finite numeric grammar of
`Decimal(str)`: `digits [ '.' digits ] [ E sign digits ]` with at least one
digit before or after the dot; yields coefficient and exponent exactly as
Python does (`int(intpart + fracpart)`, `E-value - len(fracpart)`). -/
def parseUnsigned (l : List Ch) : Option (ℕ × ℤ) :=
  let intSpan := l.span Ch.isDigit
  match intSpan.2 with
  | Ch.dot :: afterDot =>
    let fracSpan := afterDot.span Ch.isDigit
    if intSpan.1 = [] ∧ fracSpan.1 = [] then none
    else
      match parseExpSuffix fracSpan.2 with
      | some ev =>
        some (valBE ((intSpan.1 ++ fracSpan.1).map Ch.toDigit),
          ev - fracSpan.1.length)
      | none => none
  | rest =>
    if intSpan.1 = [] then none
    else
      match parseExpSuffix rest with
      | some ev => some (valBE (intSpan.1.map Ch.toDigit), ev)
      | none => none

/-- `Decimal(str)` on a finite numeric string (sign then unsigned body). -/
def parseDec (l : List Ch) : Option Dec :=
  match l with
  | Ch.hyphen :: rest => (parseUnsigned rest).map (fun p => ⟨true, p.1, p.2⟩)
  | Ch.plus :: rest => (parseUnsigned rest).map (fun p => ⟨false, p.1, p.2⟩)
  | _ => (parseUnsigned l).map (fun p => ⟨false, p.1, p.2⟩)

/-- A naive `datetime.datetime` (the candle timestamps the cache stores). -/
structure DateTime where
  year : ℕ
  month : ℕ
  day : ℕ
  hour : ℕ
  minute : ℕ
  second : ℕ
  microsecond : ℕ
deriving DecidableEq, Repr

/-- The range constraints `datetime.datetime(...)` enforces at construction,
so every stored timestamp satisfies them. -/
def DateTime.Valid (t : DateTime) : Prop :=
  1 ≤ t.year ∧ t.year ≤ 9999 ∧ 1 ≤ t.month ∧ t.month ≤ 12 ∧ 1 ≤ t.day ∧
    t.day ≤ 31 ∧ t.hour ≤ 23 ∧ t.minute ≤ 59 ∧ t.second ≤ 59 ∧
    t.microsecond ≤ 999999

instance (t : DateTime) : Decidable t.Valid := by
  unfold DateTime.Valid
  infer_instance

/-- Zero-padded fixed-width digit field (`%04d`, `%02d`, `%06d`). -/
def padDigits (w n : ℕ) : List ℕ :=
  List.replicate (w - (decDigits n).length) 0 ++ decDigits n

/-- `datetime.isoformat()` for a naive datetime: the fractional part is
emitted only when the microsecond field is non-zero. -/
def renderDateTime (t : DateTime) : List Ch :=
  (padDigits 4 t.year).map Ch.digit ++ [Ch.hyphen] ++
  (padDigits 2 t.month).map Ch.digit ++ [Ch.hyphen] ++
  (padDigits 2 t.day).map Ch.digit ++ [Ch.upperT] ++
  (padDigits 2 t.hour).map Ch.digit ++ [Ch.colon] ++
  (padDigits 2 t.minute).map Ch.digit ++ [Ch.colon] ++
  (padDigits 2 t.second).map Ch.digit ++
  (if t.microsecond ≠ 0 then Ch.dot :: (padDigits 6 t.microsecond).map Ch.digit
   else [])

/-- Fixed-width digit field reader (`datetime.fromisoformat` component). -/
def readFixed (w : ℕ) (l : List Ch) : Option (ℕ × List Ch) :=
  let ds := l.take w
  if ds.length = w ∧ ds.all Ch.isDigit then some (valBE (ds.map Ch.toDigit), l.drop w)
  else none

/-- Expect one separator character. -/
def readSep (c : Ch) (l : List Ch) : Option (List Ch) :=
  match l with
  | x :: rest => if x = c then some rest else none
  | [] => none

/-- `datetime.fromisoformat` on the strings `isoformat` emits. -/
def parseDateTime (l : List Ch) : Option DateTime :=
  match readFixed 4 l with
  | none => none
  | some (year, r1) =>
    match readSep Ch.hyphen r1 with
    | none => none
    | some r2 =>
      match readFixed 2 r2 with
      | none => none
      | some (month, r3) =>
        match readSep Ch.hyphen r3 with
        | none => none
        | some r4 =>
          match readFixed 2 r4 with
          | none => none
          | some (day, r5) =>
            match readSep Ch.upperT r5 with
            | none => none
            | some r6 =>
              match readFixed 2 r6 with
              | none => none
              | some (hour, r7) =>
                match readSep Ch.colon r7 with
                | none => none
                | some r8 =>
                  match readFixed 2 r8 with
                  | none => none
                  | some (minute, r9) =>
                    match readSep Ch.colon r9 with
                    | none => none
                    | some r10 =>
                      match readFixed 2 r10 with
                      | none => none
                      | some (second, r11) =>
                        match r11 with
                        | [] => some ⟨year, month, day, hour, minute, second, 0⟩
                        | Ch.dot :: r12 =>
                          match readFixed 6 r12 with
                          | some (microsecond, []) =>
                            some ⟨year, month, day, hour, minute, second, microsecond⟩
                          | _ => none
                        | _ => none

/-- `Timeframe` from `src/domain/value_objects/timeframe.py`. -/
inductive Timeframe
  | ONE_MINUTE
  | FIVE_MINUTES
  | FIFTEEN_MINUTES
  | THIRTY_MINUTES
  | FORTYFIVE_MINUTES
  | ONE_HOUR
  | TWO_HOURS
  | FOUR_HOURS
  | EIGHT_HOURS
  | ONE_DAY
  | ONE_WEEK
  | ONE_MONTH
deriving DecidableEq, Repr

/-- The string `.value` of each `Timeframe` member. -/
def Timeframe.value : Timeframe → String
  | .ONE_MINUTE => "1min"
  | .FIVE_MINUTES => "5min"
  | .FIFTEEN_MINUTES => "15min"
  | .THIRTY_MINUTES => "30min"
  | .FORTYFIVE_MINUTES => "45min"
  | .ONE_HOUR => "1h"
  | .TWO_HOURS => "2h"
  | .FOUR_HOURS => "4h"
  | .EIGHT_HOURS => "8h"
  | .ONE_DAY => "1day"
  | .ONE_WEEK => "1week"
  | .ONE_MONTH => "1month"

/-- `Timeframe(value)` — value lookup, `ValueError` (`none`) on no match. -/
def Timeframe.ofValue (v : String) : Option Timeframe :=
  if v = "1min" then some .ONE_MINUTE
  else if v = "5min" then some .FIVE_MINUTES
  else if v = "15min" then some .FIFTEEN_MINUTES
  else if v = "30min" then some .THIRTY_MINUTES
  else if v = "45min" then some .FORTYFIVE_MINUTES
  else if v = "1h" then some .ONE_HOUR
  else if v = "2h" then some .TWO_HOURS
  else if v = "4h" then some .FOUR_HOURS
  else if v = "8h" then some .EIGHT_HOURS
  else if v = "1day" then some .ONE_DAY
  else if v = "1week" then some .ONE_WEEK
  else if v = "1month" then some .ONE_MONTH
  else none

/-- The `Candle` entity at serialization-level precision: prices keep the
full `Decimal` representation and the timestamp its calendar fields (the
engine embeddings abstract both to `ℚ`, which cannot express the
"bit-identical" round-trip this claim is about). -/
structure CacheCandle where
  symbol : String
  timeframe : Timeframe
  timestamp : DateTime
  open_ : Dec
  high : Dec
  low : Dec
  close : Dec
  volume : Dec
deriving DecidableEq, Repr

/-- The dict `CandleCache._serialize_candle` builds: strings for every
field (`symbol` is already a string and passes through unchanged). -/
structure SerializedCandle where
  symbol : String
  timeframe : String
  timestamp : List Ch
  open_ : List Ch
  high : List Ch
  low : List Ch
  close : List Ch
  volume : List Ch
deriving DecidableEq, Repr

/-- `CandleCache._serialize_candle`. -/
def serializeCandle (c : CacheCandle) : SerializedCandle :=
  { symbol := c.symbol
    timeframe := c.timeframe.value
    timestamp := renderDateTime c.timestamp
    open_ := renderDec c.open_
    high := renderDec c.high
    low := renderDec c.low
    close := renderDec c.close
    volume := renderDec c.volume }

/-- `CandleCache._deserialize_candle` (a failing conversion raises
`ValueError`/`InvalidOperation`, modelled as `none`). -/
def deserializeCandle (d : SerializedCandle) : Option CacheCandle :=
  match Timeframe.ofValue d.timeframe, parseDateTime d.timestamp,
      parseDec d.open_, parseDec d.high, parseDec d.low, parseDec d.close,
      parseDec d.volume with
  | some tf, some ts, some o, some h, some l, some cl, some v =>
    some ⟨d.symbol, tf, ts, o, h, l, cl, v⟩
  | _, _, _, _, _, _, _ => none

end Cache

/-! ### Concrete fixtures used by witnesses and counterexamples -/

/-- Candle builder matching the test helpers (symbol `TEST`, 1-minute
timeframe, timestamps in seconds). -/
def mkTestCandle (ts o h l c v : ℚ) : Candle := ⟨"TEST", "1min", ts, o, h, l, c, v⟩

/-- The settings of `src/tests/test_liquidity_breaks.py::_base_settings`. -/
def c3Settings : SeedGrow.LiquidityIndicatorSettings :=
  { min_candles_in_zone := 6, max_range_percent := 5, min_strength := 1/100,
    min_boundary_touches := 1, max_zones := 5, min_gap_between_zones := 1,
    seed_candles := 6, break_invalid_pct := 2/10, break_confirm_candles := 2,
    sweep_tolerance_pct := 4/100 }

/-- The candles of the sweep scenario: a 6-candle seed at low 99 / high 101,
one sweep candle to low 98.7 closing back at 101, one inside candle. -/
def c3Candles : List Candle :=
  ((List.range 6).map (fun k => mkTestCandle (60 * k) 100 101 99 100 1)) ++
  [mkTestCandle 360 100 101 (987/10) 101 1,
   mkTestCandle 420 100 (1008/10) (992/10) 100 1]

/-- The 30-candle Wyckoff accumulation sequence from
`src/tests/test_liquidity_indicator.py::_wyckoff_accumulation_sequence`. -/
def wyckoffCandles : List Candle :=
  ((List.range 12).map (fun k =>
    mkTestCandle (60 * k) (105 - (6/10) * k) ((1052/10) - (6/10) * k)
      (104 - (6/10) * k) ((1044/10) - (6/10) * k) 90)) ++
  [mkTestCandle 720 (978/10) (982/10) (965/10) (969/10) 150,
   mkTestCandle 780 (968/10) 98 (954/10) (957/10) 230,
   mkTestCandle 840 (958/10) (988/10) (955/10) (984/10) 170,
   mkTestCandle 900 98 (966/10) (955/10) (962/10) 120,
   mkTestCandle 960 (961/10) (967/10) (956/10) (963/10) 110,
   mkTestCandle 1020 (964/10) (966/10) (949/10) (956/10) 140,
   mkTestCandle 1080 96 (971/10) (957/10) (968/10) 105,
   mkTestCandle 1140 (967/10) 97 (959/10) (964/10) 100,
   mkTestCandle 1200 (964/10) (972/10) 96 (969/10) 102,
   mkTestCandle 1260 (968/10) (975/10) (963/10) (972/10) 108,
   mkTestCandle 1320 97 (976/10) (965/10) (974/10) 112,
   mkTestCandle 1380 (975/10) (978/10) (969/10) (976/10) 115,
   mkTestCandle 1440 (974/10) (979/10) (969/10) (972/10) 95,
   mkTestCandle 1500 (974/10) (979/10) (969/10) (972/10) 95,
   mkTestCandle 1560 (974/10) (979/10) (969/10) (972/10) 95,
   mkTestCandle 1620 (974/10) (979/10) (969/10) (972/10) 95,
   mkTestCandle 1680 (974/10) (979/10) (969/10) (972/10) 95,
   mkTestCandle 1740 (974/10) (979/10) (969/10) (972/10) 95]

/-- 25 identical flat candles — enough to reach `_analyze_window` under the
default exported settings. -/
def flat25 : List Candle :=
  (List.range 25).map (fun k => mkTestCandle (60 * k) 100 101 99 100 1)

/-- Merge-idempotence counterexample zones (times in seconds, overlapping
prices). -/
def mergeZoneA : LiqModels.AccumulationZone :=
  { start_time := 0, end_time := 100, high_price := 11, low_price := 10,
    candle_count := 5, strength := 1/2 }

def mergeZoneB : LiqModels.AccumulationZone :=
  { start_time := 50, end_time := 150, high_price := 11, low_price := 10,
    candle_count := 5, strength := 61/100 }

def mergeZoneC : LiqModels.AccumulationZone :=
  { start_time := 52, end_time := 120, high_price := 11, low_price := 10,
    candle_count := 5, strength := 7/10 }

/-- Swing settings used by the rising/falling fixtures (test threshold 1%). -/
def c4Settings : TrendDetector.SwingSettings :=
  { max_swings := 12, min_price_move := none, min_percent_move := 1/100 }

/-- A 4-candle sequence whose zigzag swings are LOW 90, HIGH 110, LOW 104.5,
HIGH 118: strictly rising highs and lows, every step significant at 1%. -/
def upCandles : List Candle :=
  [mkTestCandle 0 100 101 90 100 1, mkTestCandle 60 101 110 102 110 1,
   mkTestCandle 120 105 105 (1045/10) 105 1, mkTestCandle 180 106 118 106 118 1]

/-- Mirror sequence: swings HIGH 110, LOW 88, HIGH 95, LOW 80 — strictly
falling highs and lows. -/
def downCandles : List Candle :=
  [mkTestCandle 0 100 110 99 100 1, mkTestCandle 60 90 90 88 90 1,
   mkTestCandle 120 92 95 92 94 1, mkTestCandle 180 84 85 80 84 1]

/-- Lookback-1 settings for the pivot-extraction witness. -/
def c8Settings : TrendInd.TrendIndicatorSettings := { lookback_bars := 1 }

/-- Three candles with a swing high at index 1 (high 105 above both
neighbours) that is not a swing low. -/
def c8Candles : List Candle :=
  [mkTestCandle 0 100 101 99 100 1, mkTestCandle 60 100 105 100 104 1,
   mkTestCandle 120 100 102 98 99 1]

namespace TrendDetector

open TrendVO

/-- The registration baseline for the next swing: the last remembered
swing's price, else the anchor close. -/
def lastBase (pre : List Swing) (anchor : Option ℚ) : Option ℚ :=
  match pre.getLast? with
  | some ls => some ls.price
  | none => anchor

/-- The type of the last remembered swing, if any. -/
def lastType (pre : List Swing) : Option SwingType :=
  (pre.getLast?).map Swing.type

/-- Every swing is significant against the registration baseline of the
swings before it (the zigzag records only significant retracements, so
detected swing lists satisfy this). -/
def sigChainB (s : SwingSettings) : Option ℚ → List Swing → Bool
  | _, [] => true
  | base, sw :: rest =>
    s.is_significant base sw.price && sigChainB s (some sw.price) rest

/-- Swing types strictly alternate (HIGH/LOW zigzag). -/
def altChainB : Option SwingType → List Swing → Bool
  | _, [] => true
  | prev, sw :: rest =>
    (match prev with
     | some t => decide (t ≠ sw.type)
     | none => true) && altChainB (some sw.type) rest

/-- The swing-high subsequence, exactly as `_classify_trend` filters it. -/
def highsOf (l : List Swing) : List Swing := l.filter (fun sw => sw.type = .HIGH)

/-- The swing-low subsequence. -/
def lowsOf (l : List Swing) : List Swing := l.filter (fun sw => sw.type = .LOW)

/-- Consecutive swing prices strictly increase, each new extreme exceeding
the prior one by at least the configured significance threshold. -/
def chainIncB (s : SwingSettings) : List Swing → Bool
  | [] => true
  | [_] => true
  | a :: b :: rest =>
    decide (a.price < b.price) && s.is_significant (some a.price) b.price &&
      chainIncB s (b :: rest)

/-- Consecutive swing prices strictly decrease with significant steps. -/
def chainDecB (s : SwingSettings) : List Swing → Bool
  | [] => true
  | [_] => true
  | a :: b :: rest =>
    decide (b.price < a.price) && s.is_significant (some a.price) b.price &&
      chainDecB s (b :: rest)

/-- Successive swing highs and successive swing lows are each strictly
monotonically rising, every new extreme a significant move past the prior. -/
def risingB (s : SwingSettings) (l : List Swing) : Bool :=
  chainIncB s (highsOf l) && chainIncB s (lowsOf l)

/-- Successive swing highs and successive swing lows are each strictly
monotonically falling, every new extreme a significant move past the prior. -/
def fallingB (s : SwingSettings) (l : List Swing) : Bool :=
  chainDecB s (highsOf l) && chainDecB s (lowsOf l)

end TrendDetector

/-- Concrete cache candle for the round-trip witness (prices with distinct
decimal representations, timestamp 2024-01-01T00:00:00). -/
def c9Candle : Cache.CacheCandle :=
  { symbol := "TEST"
    timeframe := .ONE_MINUTE
    timestamp := ⟨2024, 1, 1, 0, 0, 0, 0⟩
    open_ := ⟨false, 10, -1⟩
    high := ⟨false, 11, -1⟩
    low := ⟨false, 9, -1⟩
    close := ⟨false, 105, -2⟩
    volume := ⟨false, 100, 0⟩ }

/-! ### Claim theorems -/

section ConcreteEvaluation

/- Mathlib ships the four kernel-computable `Rat` primitives as
`irreducible`; restore their reducibility locally so closed goals about the
embedded engines evaluate by `decide`/`rfl`. -/
attribute [local semireducible] Rat.add Rat.sub Rat.mul Rat.inv

/-- C3: a candle penetrating the zone range by less than `break_invalid_pct`
of the zone height and closing back inside is absorbed: for the 6-candle
seed at low 99 / high 101 followed by a sweep candle with low 98.7 closing
at 101 and a normal inside candle, the seed-and-grow `analyze` (settings
permitting a 6-candle zone) returns exactly one zone with
`candle_count = 8`, `low_price = 98.7` and `high_price = 101`. -/
theorem claim_C3_sweep_absorbed_into_zone :
    (SeedGrow.analyze c3Settings c3Candles).total_zones = 1 ∧
    ((SeedGrow.analyze c3Settings c3Candles).accumulation_zones.map
      (fun z => (z.candle_count, z.low_price, z.high_price))) =
      [(8, 987/10, 101)] := by
  decide

/-- C2 (failing input): with the package-exported frozen settings class at
its defaults and 25 candles, `LiquidityIndicator.analyze` does not return a
`LiquiditySignal` — it raises `AttributeError` because `_has_previous_downtrend`
reads `downtrend_lookback`, a field the exported settings class lacks. -/
theorem claim_C2_analyze_raises_attribute_error :
    LiqSettingsPy.analyzeX {} flat25 =
      .error (.attributeError "downtrend_lookback") := by
  rfl

/-- C6 (counterexample): the zone-merging pass is not idempotent — on the
three concrete zones A(0..100s), B(50..150s), C(52..120s) with overlapping
prices and strengths 0.5 / 0.61 / 0.7, the first pass keeps [A, C] and the
second pass merges again down to [C]. -/
theorem claim_C6_counterexample :
    LiqInd.mergeOverlappingZones {}
        (LiqInd.mergeOverlappingZones {} [mergeZoneA, mergeZoneB, mergeZoneC]) ≠
      LiqInd.mergeOverlappingZones {} [mergeZoneA, mergeZoneB, mergeZoneC] := by
  decide

/-- C7 (counterexample): `TrendIndicatorSettings` is not validated at
construction — building it with `max_swings = -1` and `lookback_bars = -2`,
both outside any positive declared bound, succeeds instead of raising. -/
theorem claim_C7_counterexample :
    TrendInd.mkTrendIndicatorSettings (-1) (3/1000) (-2) =
      .ok { max_swings := -1, min_percent_move := 3/1000, lookback_bars := -2 } ∧
    ((-1 : ℤ) ≤ 0 ∧ (-2 : ℤ) ≤ 0) :=
  ⟨rfl, by decide⟩

end ConcreteEvaluation

/-- C5: for candle sequences shorter than the minimum required length,
`TrendIndicator.analyze` returns trend UNDEFINED with confidence 0 and an
empty swings list (whatever the engine's memory holds), and
`LiquidityIndicator.analyze` returns an empty zone list with `total_zones` 0
carrying only the period bounds (nulls when the sequence is empty). -/
theorem claim_C5_insufficient_data_neutral
    (ts : TrendInd.TrendIndicatorSettings) (tst : TrendInd.TrendIndicatorState)
    (ls : LiqInd.LiquidityIndicatorSettings) (candles1 candles2 : List Candle)
    (h1 : candles1.length < 2 * ts.lookback_bars + 1)
    (h2 : candles2.length < ls.min_candles_in_zone) :
    (TrendInd.analyze ts tst candles1).1 =
      { trend := .UNDEFINED, swings := [], last_bos := none, confidence := 0,
        reason := "Dados insuficientes para análise" } ∧
    LiqInd.analyze ls candles2 =
      { accumulation_zones := [], total_zones := 0,
        analysis_period_start := (candles2.head?).map Candle.timestamp,
        analysis_period_end := (candles2.getLast?).map Candle.timestamp } := by
  constructor
  · unfold TrendInd.analyze
    rw [if_pos (by omega)]
  · unfold LiqInd.analyze
    rw [if_pos h2]

/-- C5 witness: two candles are below both minimums (lookback 3 needs 7,
`min_candles_in_zone` defaults to 25), and both engines return the neutral
results. -/
theorem claim_C5_witness :
    (TrendInd.analyze {} {} (c8Candles.take 2)).1 =
      { trend := .UNDEFINED, swings := [], last_bos := none, confidence := 0,
        reason := "Dados insuficientes para análise" } ∧
    LiqInd.analyze {} (c8Candles.take 2) =
      { accumulation_zones := [], total_zones := 0,
        analysis_period_start := ((c8Candles.take 2).head?).map Candle.timestamp,
        analysis_period_end := ((c8Candles.take 2).getLast?).map Candle.timestamp } :=
  claim_C5_insufficient_data_neutral {} {} {} (c8Candles.take 2) (c8Candles.take 2)
    (by decide) (by decide)

/-- C7 (amended): only the exported `LiquidityIndicatorSettings` is frozen
and validated at construction — it constructs successfully exactly when
every declared numeric bound holds and raises `ValueError` otherwise —
while `TrendIndicatorSettings` is a plain unvalidated dataclass whose
construction succeeds for any numeric values. -/
theorem claim_C7_settings_validation :
    (∀ (a : ℤ) (b c : ℚ) (d e f : ℤ) (g : ℚ) (h i : ℤ) (j k : ℚ),
      (∃ st, LiqSettingsPy.mkLiquidityIndicatorSettings a b c d e f g h i j k =
        .ok st) ↔
      (¬ a ≤ 0 ∧ ¬ b ≤ 0 ∧ (0 < c ∧ c ≤ 1) ∧ ¬ d ≤ 0 ∧ ¬ e ≤ 0 ∧ ¬ f < 0 ∧
        (0 < g ∧ g < 1) ∧ ¬ h ≤ 0 ∧ ¬ i ≤ 0 ∧ (0 < j ∧ j < 2) ∧
        (0 < k ∧ k < 5))) ∧
    (∀ (a : ℤ) (b : ℚ) (c : ℤ), TrendInd.mkTrendIndicatorSettings a b c =
      .ok { max_swings := a, min_percent_move := b, lookback_bars := c }) := by
  constructor
  · intro a b c d e f g h i j k
    unfold LiqSettingsPy.mkLiquidityIndicatorSettings
    constructor
    · rintro ⟨st, hst⟩
      by_cases h1 : a ≤ 0
      · rw [if_pos h1] at hst; exact Except.noConfusion hst
      rw [if_neg h1] at hst
      by_cases h2 : b ≤ 0
      · rw [if_pos h2] at hst; exact Except.noConfusion hst
      rw [if_neg h2] at hst
      by_cases h3 : 0 < c ∧ c ≤ 1
      case neg => rw [if_pos h3] at hst; exact Except.noConfusion hst
      rw [if_neg (not_not_intro h3)] at hst
      by_cases h4 : d ≤ 0
      · rw [if_pos h4] at hst; exact Except.noConfusion hst
      rw [if_neg h4] at hst
      by_cases h5 : e ≤ 0
      · rw [if_pos h5] at hst; exact Except.noConfusion hst
      rw [if_neg h5] at hst
      by_cases h6 : f < 0
      · rw [if_pos h6] at hst; exact Except.noConfusion hst
      rw [if_neg h6] at hst
      by_cases h7 : 0 < g ∧ g < 1
      case neg => rw [if_pos h7] at hst; exact Except.noConfusion hst
      rw [if_neg (not_not_intro h7)] at hst
      by_cases h8 : h ≤ 0
      · rw [if_pos h8] at hst; exact Except.noConfusion hst
      rw [if_neg h8] at hst
      by_cases h9 : i ≤ 0
      · rw [if_pos h9] at hst; exact Except.noConfusion hst
      rw [if_neg h9] at hst
      by_cases h10 : 0 < j ∧ j < 2
      case neg => rw [if_pos h10] at hst; exact Except.noConfusion hst
      rw [if_neg (not_not_intro h10)] at hst
      by_cases h11 : 0 < k ∧ k < 5
      case neg => rw [if_pos h11] at hst; exact Except.noConfusion hst
      exact ⟨h1, h2, h3, h4, h5, h6, h7, h8, h9, h10, h11⟩
    · rintro ⟨h1, h2, h3, h4, h5, h6, h7, h8, h9, h10, h11⟩
      exact ⟨_, by
        rw [if_neg h1, if_neg h2, if_neg (not_not_intro h3), if_neg h4, if_neg h5,
          if_neg h6, if_neg (not_not_intro h7), if_neg h8, if_neg h9,
          if_neg (not_not_intro h10), if_neg (not_not_intro h11)]⟩
  · intro a b c
    rfl

namespace LiqInd

open LiqModels

lemma sortByStart_cons (x : AccumulationZone) (l : List AccumulationZone) :
    sortByStart (x :: l) = insertByStart x (sortByStart l) := rfl

lemma sortByStrengthDesc_cons (x : AccumulationZone) (l : List AccumulationZone) :
    sortByStrengthDesc (x :: l) = insertByStrengthDesc x (sortByStrengthDesc l) := rfl

lemma mem_insertByStart {x y : AccumulationZone} : ∀ {l : List AccumulationZone},
    y ∈ insertByStart x l ↔ y = x ∨ y ∈ l := by
  intro l
  induction l with
  | nil => simp [insertByStart]
  | cons a l ih =>
    unfold insertByStart
    split_ifs with hlt
    · simp only [List.mem_cons, ih]
      tauto
    · simp only [List.mem_cons]

lemma mem_sortByStart {y : AccumulationZone} : ∀ {l : List AccumulationZone},
    y ∈ sortByStart l ↔ y ∈ l := by
  intro l
  induction l with
  | nil => simp [sortByStart]
  | cons a l ih =>
    rw [sortByStart_cons, mem_insertByStart, ih, List.mem_cons]

lemma mem_insertByStrengthDesc {x y : AccumulationZone} : ∀ {l : List AccumulationZone},
    y ∈ insertByStrengthDesc x l ↔ y = x ∨ y ∈ l := by
  intro l
  induction l with
  | nil => simp [insertByStrengthDesc]
  | cons a l ih =>
    unfold insertByStrengthDesc
    split_ifs with hlt
    · simp only [List.mem_cons, ih]
      tauto
    · simp only [List.mem_cons]

lemma mem_sortByStrengthDesc {y : AccumulationZone} : ∀ {l : List AccumulationZone},
    y ∈ sortByStrengthDesc l ↔ y ∈ l := by
  intro l
  induction l with
  | nil => simp [sortByStrengthDesc]
  | cons a l ih =>
    rw [sortByStrengthDesc_cons, mem_insertByStrengthDesc, ih, List.mem_cons]

lemma length_insertByStart (x : AccumulationZone) : ∀ (l : List AccumulationZone),
    (insertByStart x l).length = l.length + 1 := by
  intro l
  induction l with
  | nil => rfl
  | cons a l ih =>
    unfold insertByStart
    split_ifs with hlt
    · simp only [List.length_cons, ih]
    · simp only [List.length_cons]

lemma length_sortByStart (l : List AccumulationZone) :
    (sortByStart l).length = l.length := by
  induction l with
  | nil => rfl
  | cons a l ih => rw [sortByStart_cons, length_insertByStart, ih, List.length_cons]

lemma mem_mergeStep {s : LiquidityIndicatorSettings}
    {acc : List AccumulationZone} {z x : AccumulationZone}
    (hx : x ∈ mergeStep s acc z) : x ∈ acc ∨ x = z := by
  rcases acc with _ | ⟨last, accTail⟩
  · simp only [mergeStep, List.mem_singleton] at hx
    exact Or.inr hx
  · simp only [mergeStep] at hx
    split_ifs at hx with hA hB hC
    · rcases List.mem_cons.1 hx with rfl | h
      · exact Or.inr rfl
      · exact Or.inl (List.mem_cons_of_mem _ h)
    · exact Or.inl hx
    · rcases List.mem_cons.1 hx with rfl | h
      · exact Or.inr rfl
      · exact Or.inl h
    · exact Or.inl hx

lemma foldl_mergeStep_mem (s : LiquidityIndicatorSettings) :
    ∀ (l acc : List AccumulationZone) (x : AccumulationZone),
      x ∈ l.foldl (mergeStep s) acc → x ∈ acc ∨ x ∈ l := by
  intro l
  induction l with
  | nil => intro acc x hx; exact Or.inl hx
  | cons z l ih =>
    intro acc x hx
    rcases ih _ x hx with h | h
    · rcases mem_mergeStep h with h' | h'
      · exact Or.inl h'
      · exact Or.inr (h' ▸ List.mem_cons_self z l)
    · exact Or.inr (List.mem_cons_of_mem _ h)

lemma mem_mergeOverlappingZones {s : LiquidityIndicatorSettings}
    {zs : List AccumulationZone} {x : AccumulationZone}
    (hx : x ∈ mergeOverlappingZones s zs) : x ∈ zs := by
  unfold mergeOverlappingZones at hx
  split_ifs at hx with h
  · simp at hx
  · rw [List.mem_reverse] at hx
    rcases foldl_mergeStep_mem s _ [] x hx with h' | h'
    · simp at h'
    · exact mem_sortByStart.1 h'

lemma insertByStart_pairwise {x : AccumulationZone} :
    ∀ {l : List AccumulationZone},
      l.Pairwise (fun a b => a.start_time ≤ b.start_time) →
      (insertByStart x l).Pairwise (fun a b => a.start_time ≤ b.start_time) := by
  intro l
  induction l with
  | nil => intro _; simp [insertByStart]
  | cons a l ih =>
    intro h
    rcases List.pairwise_cons.1 h with ⟨ha, hl⟩
    unfold insertByStart
    split_ifs with hlt
    · refine List.pairwise_cons.2 ⟨?_, ih hl⟩
      intro y hy
      rcases mem_insertByStart.1 hy with rfl | hy'
      · exact le_of_lt hlt
      · exact ha y hy'
    · refine List.pairwise_cons.2 ⟨?_, h⟩
      intro y hy
      rcases List.mem_cons.1 hy with rfl | hy'
      · exact le_of_not_lt hlt
      · exact le_trans (le_of_not_lt hlt) (ha y hy')

lemma sortByStart_pairwise (l : List AccumulationZone) :
    (sortByStart l).Pairwise (fun a b => a.start_time ≤ b.start_time) := by
  induction l with
  | nil => simp [sortByStart]
  | cons a l ih => rw [sortByStart_cons]; exact insertByStart_pairwise ih

lemma sortByStart_eq_of_pairwise :
    ∀ {l : List AccumulationZone},
      l.Pairwise (fun a b => a.start_time ≤ b.start_time) → sortByStart l = l := by
  intro l
  induction l with
  | nil => intro _; rfl
  | cons a l ih =>
    intro h
    rcases List.pairwise_cons.1 h with ⟨ha, hl⟩
    rw [sortByStart_cons, ih hl]
    cases l with
    | nil => rfl
    | cons b t =>
      unfold insertByStart
      rw [if_neg (not_lt.2 (ha b (List.mem_cons_self b t)))]

lemma foldl_mergeStep_reverse_sublist (s : LiquidityIndicatorSettings) :
    ∀ (l acc : List AccumulationZone),
      ((l.foldl (mergeStep s) acc).reverse).Sublist (acc.reverse ++ l) := by
  intro l
  induction l with
  | nil => intro acc; simp
  | cons z l ih =>
    intro acc
    refine List.Sublist.trans (ih (mergeStep s acc z)) ?_
    rcases acc with _ | ⟨last, accTail⟩
    · simp [mergeStep]
    · simp only [mergeStep]
      split_ifs with hA hB hC
      · simp only [List.reverse_cons, List.append_assoc]
        refine List.Sublist.append_left ?_ _
        exact List.sublist_cons_self last (z :: l)
      · simp only [List.reverse_cons, List.append_assoc]
        refine List.Sublist.append_left ?_ _
        exact List.Sublist.cons₂ last (List.sublist_cons_self z l)
      · simp [List.reverse_cons, List.append_assoc]
      · simp only [List.reverse_cons, List.append_assoc]
        refine List.Sublist.append_left ?_ _
        exact List.Sublist.cons₂ last (List.sublist_cons_self z l)

lemma foldl_mergeStep_pairwise (s : LiquidityIndicatorSettings) :
    ∀ (l acc : List AccumulationZone),
      ((acc.reverse ++ l).Pairwise (fun a b => a.start_time ≤ b.start_time)) →
      (((l.foldl (mergeStep s) acc).reverse).Pairwise
        (fun a b => a.start_time ≤ b.start_time)) := by
  intro l
  induction l with
  | nil => intro acc h; simpa using h
  | cons z l ih =>
    intro acc h
    refine ih (mergeStep s acc z) ?_
    rcases acc with _ | ⟨last, accTail⟩
    · simpa [mergeStep] using h
    · simp only [mergeStep]
      split_ifs with hA hB hC
      · refine List.Pairwise.sublist ?_ h
        simp only [List.reverse_cons, List.append_assoc]
        refine List.Sublist.append_left ?_ _
        exact List.sublist_cons_self last (z :: l)
      · refine List.Pairwise.sublist ?_ h
        simp only [List.reverse_cons, List.append_assoc]
        refine List.Sublist.append_left ?_ _
        exact List.Sublist.cons₂ last (List.sublist_cons_self z l)
      · simpa [List.reverse_cons, List.append_assoc] using h
      · refine List.Pairwise.sublist ?_ h
        simp only [List.reverse_cons, List.append_assoc]
        refine List.Sublist.append_left ?_ _
        exact List.Sublist.cons₂ last (List.sublist_cons_self z l)

lemma mergeOverlappingZones_pairwise (s : LiquidityIndicatorSettings)
    (zs : List AccumulationZone) :
    (mergeOverlappingZones s zs).Pairwise
      (fun a b => a.start_time ≤ b.start_time) := by
  unfold mergeOverlappingZones
  split_ifs with h
  · simp
  · exact foldl_mergeStep_pairwise s _ [] (by simpa using sortByStart_pairwise zs)

lemma mergeOverlappingZones_sublist_sorted (s : LiquidityIndicatorSettings)
    (zs : List AccumulationZone) :
    (mergeOverlappingZones s zs).Sublist (sortByStart zs) := by
  unfold mergeOverlappingZones
  split_ifs with h
  · simp
  · simpa using foldl_mergeStep_reverse_sublist s (sortByStart zs) []

end LiqInd

/-- C6 (amended): the merge pass never grows its input — re-running
`_merge_overlapping_zones` on its own output yields a sublist of that output
(it may still merge or drop further zones, so full idempotence fails, as the
counterexample shows). -/
theorem claim_C6_merge_rerun_sublist (s : LiqInd.LiquidityIndicatorSettings)
    (zs : List LiqModels.AccumulationZone) :
    (LiqInd.mergeOverlappingZones s (LiqInd.mergeOverlappingZones s zs)).Sublist
      (LiqInd.mergeOverlappingZones s zs) := by
  have h := LiqInd.mergeOverlappingZones_sublist_sorted s
    (LiqInd.mergeOverlappingZones s zs)
  rwa [LiqInd.sortByStart_eq_of_pairwise
    (LiqInd.mergeOverlappingZones_pairwise s zs)] at h

namespace LiqInd

open LiqModels

lemma length_insertByStrengthDesc (x : AccumulationZone) :
    ∀ (l : List AccumulationZone),
      (insertByStrengthDesc x l).length = l.length + 1 := by
  intro l
  induction l with
  | nil => rfl
  | cons a l ih =>
    unfold insertByStrengthDesc
    split_ifs with hlt
    · simp only [List.length_cons, ih]
    · simp only [List.length_cons]

lemma length_sortByStrengthDesc (l : List AccumulationZone) :
    (sortByStrengthDesc l).length = l.length := by
  induction l with
  | nil => rfl
  | cons a l ih =>
    rw [sortByStrengthDesc_cons, length_insertByStrengthDesc, ih, List.length_cons]

end LiqInd

/-- C10: every `LiquiditySignal` returned by `LiquidityIndicator.analyze`
has `total_zones` equal to the number of entries in `accumulation_zones`,
the zone list sorted ascending by `start_time`, and at most `max_zones`
entries. -/
theorem claim_C10_signal_shape (s : LiqInd.LiquidityIndicatorSettings)
    (candles : List Candle) :
    (LiqInd.analyze s candles).total_zones =
      (LiqInd.analyze s candles).accumulation_zones.length ∧
    (LiqInd.analyze s candles).accumulation_zones.length ≤ s.max_zones ∧
    (LiqInd.analyze s candles).accumulation_zones.Pairwise
      (fun a b => a.start_time ≤ b.start_time) := by
  unfold LiqInd.analyze
  split_ifs with h
  · simp
  · refine ⟨rfl, ?_, LiqInd.sortByStart_pairwise _⟩
    rw [LiqInd.length_sortByStart]
    exact List.length_take_le _ _

lemma foldlPreserve {α β : Type _} {P : β → Prop} (f : β → α → β) :
    ∀ (l : List α) (init : β), P init →
      (∀ b a, a ∈ l → P b → P (f b a)) → P (l.foldl f init) := by
  intro l
  induction l with
  | nil => intro init h _; exact h
  | cons a l ih =>
    intro init h hstep
    exact ih (f init a) (hstep init a (List.mem_cons_self a l) h)
      (fun b x hx hb => hstep b x (List.mem_cons_of_mem _ hx) hb)

namespace LiqInd

open LiqModels

/-- Whenever `_find_selling_climax` returns an index, the guard
`avg_range == 0 or avg_volume == 0` was passed and the candle at that index
satisfied the volume-spike condition. -/
lemma findSellingClimax_spec (s : LiquidityIndicatorSettings)
    (window : List Candle) (avg_range avg_volume : ℚ) (idx : ℕ)
    (h : findSellingClimax s window avg_range avg_volume = some idx) :
    avg_volume ≠ 0 ∧
      s.sc_volume_spike_ratio ≤
        (window.getD idx defaultCandle).volume / avg_volume := by
  unfold findSellingClimax at h
  have hP := foldlPreserve (P := fun acc : Option ℕ × ℚ => ∀ i, acc.1 = some i →
      avg_volume ≠ 0 ∧ s.sc_volume_spike_ratio ≤
        (window.getD i defaultCandle).volume / avg_volume)
    (scStep s avg_range avg_volume) window.enum (none, 0)
    (by intro i hi; exact Option.noConfusion hi)
    ?_
  · exact hP idx h
  · intro acc p hp hacc
    have hpv : window.getD p.1 defaultCandle = p.2 := by
      rcases p with ⟨i, c⟩
      have hg : window[i]? = some c := List.mem_enum_iff_getElem?.1 hp
      simp [List.getD_eq_getElem?_getD, hg]
    rcases acc with ⟨ob, best⟩
    simp only [scStep]
    split_ifs with hzero hcond hscore
    · exact hacc
    · cases ob with
      | none =>
        intro i hi
        cases hi
        exact ⟨fun hv => hzero (Or.inr hv), hpv ▸ hcond.1⟩
      | some j =>
        intro i hi
        cases hi
        exact ⟨fun hv => hzero (Or.inr hv), hpv ▸ hcond.1⟩
    · cases ob with
      | none =>
        intro i hi
        cases hi
        exact ⟨fun hv => hzero (Or.inr hv), hpv ▸ hcond.1⟩
      | some j => exact hacc
    · exact hacc

/-- `_calculate_zone_strength` always lands in `[0, 1]` provided the selling
climax satisfied the (positive) volume-spike ratio. -/
lemma calculateZoneStrength_bounds (s : LiquidityIndicatorSettings)
    (window : List Candle) (hp lp rp : ℚ) (touches sc_idx st_count : ℕ)
    (spring_idx : Option ℕ) (avg_volume : ℚ)
    (hspike : 0 < s.sc_volume_spike_ratio)
    (hsc : s.sc_volume_spike_ratio ≤
      (window.getD sc_idx defaultCandle).volume / avg_volume) :
    0 ≤ calculateZoneStrength s window hp lp rp touches sc_idx st_count
        spring_idx avg_volume ∧
      calculateZoneStrength s window hp lp rp touches sc_idx st_count
        spring_idx avg_volume ≤ 1 := by
  simp only [calculateZoneStrength]
  constructor
  · refine le_min ?_ (by norm_num)
    refine add_nonneg (add_nonneg (add_nonneg (add_nonneg ?_ ?_) ?_) ?_) ?_
    · exact mul_nonneg (by simp [sub_nonneg, min_le_right]) (by norm_num)
    · exact mul_nonneg (le_max_left 0 _) (by norm_num)
    · exact mul_nonneg (le_max_left 0 _) (by norm_num)
    · exact mul_nonneg (le_max_left 0 _) (by norm_num)
    · refine le_min ?_ (by norm_num)
      refine add_nonneg (add_nonneg ?_ ?_) ?_
      · split_ifs with hav
        · refine mul_nonneg (le_min ?_ zero_le_one) (by norm_num)
          have hvr : (0:ℚ) ≤ (window.getD sc_idx defaultCandle).volume / avg_volume :=
            le_trans hspike.le hsc
          positivity
        · exact le_refl 0
      · exact mul_nonneg (le_min (by positivity) zero_le_one) (by norm_num)
      · split_ifs <;> norm_num
  · exact min_le_right _ _

/-- Every zone produced by `_analyze_window` satisfies the construction
invariants. -/
lemma analyzeWindow_spec {s : LiquidityIndicatorSettings}
    {candles : List Candle} {a b : ℕ} {z : AccumulationZone}
    (hspike : 0 < s.sc_volume_spike_ratio)
    (hz : analyzeWindow s candles a b = some z) :
    z.low_price < z.high_price ∧ s.min_candles_in_zone ≤ z.candle_count ∧
      0 ≤ z.strength ∧ z.strength ≤ 1 := by
  simp only [analyzeWindow] at hz
  split at hz
  next hlen => exact Option.noConfusion hz
  next hlen =>
  split at hz
  next => exact Option.noConfusion hz
  next =>
  split at hz
  next => exact Option.noConfusion hz
  next sc_idx hsc =>
  split at hz
  next => exact Option.noConfusion hz
  next ar_idx har =>
  split at hz
  next => exact Option.noConfusion hz
  next hres =>
  split at hz
  next => exact Option.noConfusion hz
  next havg =>
  split at hz
  next => exact Option.noConfusion hz
  next hrange =>
  split at hz
  next => exact Option.noConfusion hz
  next hsts =>
  split at hz
  next => exact Option.noConfusion hz
  next htch =>
  rw [Option.some.injEq] at hz
  subst hz
  have hclimax := findSellingClimax_spec s _ _ _ _ hsc
  exact ⟨lt_of_not_le hres, le_of_not_lt hlen,
    calculateZoneStrength_bounds s _ _ _ _ _ _ _ _ _ hspike hclimax.2⟩

/-- Every zone in the signal of `analyze` came from some `_analyze_window`
call. -/
lemma mem_analyze_zones {s : LiquidityIndicatorSettings}
    {candles : List Candle} {z : AccumulationZone}
    (hz : z ∈ (analyze s candles).accumulation_zones) :
    ∃ a b, analyzeWindow s candles a b = some z := by
  unfold analyze at hz
  split_ifs at hz with h
  · simp at hz
  · simp only at hz
    rw [mem_sortByStart] at hz
    have hz2 := List.take_subset _ _ hz
    rw [mem_sortByStrengthDesc] at hz2
    have hz3 := List.mem_of_mem_filter hz2
    have hz4 := mem_mergeOverlappingZones hz3
    unfold detectAccumulationZones at hz4
    rw [List.mem_flatMap] at hz4
    rcases hz4 with ⟨ws, _, hmem⟩
    rw [List.mem_filterMap] at hmem
    rcases hmem with ⟨si, _, hsome⟩
    exact ⟨si, si + ws, hsome⟩

end LiqInd

/-- C1: every `AccumulationZone` in the `LiquiditySignal` returned by
`LiquidityIndicator.analyze` has `high_price > low_price`,
`candle_count >= min_candles_in_zone`, and `strength ∈ [0, 1]`.  The
hypotheses mirror the settings' documented bounds (positive counts and a
positive selling-climax volume-spike ratio, as in the defaults). -/
theorem claim_C1_zone_invariants (s : LiqInd.LiquidityIndicatorSettings)
    (candles : List Candle)
    (h1 : 0 < s.min_candles_in_zone) (h2 : 0 < s.min_boundary_touches)
    (h3 : 0 < s.sc_volume_spike_ratio) :
    ∀ z ∈ (LiqInd.analyze s candles).accumulation_zones,
      z.low_price < z.high_price ∧ s.min_candles_in_zone ≤ z.candle_count ∧
        0 ≤ z.strength ∧ z.strength ≤ 1 := by
  intro z hz
  rcases LiqInd.mem_analyze_zones hz with ⟨a, b, hw⟩
  exact LiqInd.analyzeWindow_spec h3 hw

section ConcreteWitnesses

attribute [local semireducible] Rat.add Rat.sub Rat.mul Rat.inv

set_option maxRecDepth 4000 in
/-- C1 witness: the default local settings satisfy the bound hypotheses, the
30-candle Wyckoff test sequence yields exactly one zone, and the invariants
hold on that signal. -/
theorem claim_C1_witness :
    ((0 < ({} : LiqInd.LiquidityIndicatorSettings).min_candles_in_zone ∧
      0 < ({} : LiqInd.LiquidityIndicatorSettings).min_boundary_touches ∧
      0 < ({} : LiqInd.LiquidityIndicatorSettings).sc_volume_spike_ratio) ∧
     (LiqInd.analyze {} wyckoffCandles).total_zones = 1) ∧
    (∀ z ∈ (LiqInd.analyze {} wyckoffCandles).accumulation_zones,
      z.low_price < z.high_price ∧
        ({} : LiqInd.LiquidityIndicatorSettings).min_candles_in_zone ≤
          z.candle_count ∧
        0 ≤ z.strength ∧ z.strength ≤ 1) :=
  ⟨⟨⟨by decide, by decide, by decide⟩, by decide⟩,
    claim_C1_zone_invariants {} wyckoffCandles (by decide) (by decide) (by decide)⟩

end ConcreteWitnesses

namespace TrendInd

lemma swingHighB_iff (s : TrendIndicatorSettings) (candles : List Candle) (i : ℕ) :
    ((List.range' 1 s.lookback_bars 1).all (fun j =>
      decide ((candles.getD i defaultCandle).high ≥
        (candles.getD (i - j) defaultCandle).high) &&
      decide ((candles.getD i defaultCandle).high ≥
        (candles.getD (i + j) defaultCandle).high)) = true) ↔
    (∀ j, 1 ≤ j → j ≤ s.lookback_bars →
      (candles.getD i defaultCandle).high ≥ (candles.getD (i - j) defaultCandle).high ∧
      (candles.getD i defaultCandle).high ≥ (candles.getD (i + j) defaultCandle).high) := by
  rw [List.all_eq_true]
  constructor
  · intro h j hj1 hj2
    have hm : j ∈ List.range' 1 s.lookback_bars 1 := List.mem_range'_1.2 ⟨hj1, by omega⟩
    simpa using h j hm
  · intro h j hj
    rcases List.mem_range'_1.1 hj with ⟨hj1, hj2⟩
    simp only [Bool.and_eq_true, decide_eq_true_eq]
    exact (h j hj1 (by omega))

lemma swingLowB_iff (s : TrendIndicatorSettings) (candles : List Candle) (i : ℕ) :
    ((List.range' 1 s.lookback_bars 1).all (fun j =>
      decide ((candles.getD i defaultCandle).low ≤
        (candles.getD (i - j) defaultCandle).low) &&
      decide ((candles.getD i defaultCandle).low ≤
        (candles.getD (i + j) defaultCandle).low)) = true) ↔
    (∀ j, 1 ≤ j → j ≤ s.lookback_bars →
      (candles.getD i defaultCandle).low ≤ (candles.getD (i - j) defaultCandle).low ∧
      (candles.getD i defaultCandle).low ≤ (candles.getD (i + j) defaultCandle).low) := by
  rw [List.all_eq_true]
  constructor
  · intro h j hj1 hj2
    have hm : j ∈ List.range' 1 s.lookback_bars 1 := List.mem_range'_1.2 ⟨hj1, by omega⟩
    simpa using h j hm
  · intro h j hj
    rcases List.mem_range'_1.1 hj with ⟨hj1, hj2⟩
    simp only [Bool.and_eq_true, decide_eq_true_eq]
    exact (h j hj1 (by omega))

lemma mem_pyRange_of_bounds (s : TrendIndicatorSettings) (candles : List Candle)
    (i : ℕ) (h1 : s.lookback_bars ≤ i) (h2 : i + s.lookback_bars < candles.length) :
    i ∈ pyRange s.lookback_bars ((candles.length : ℤ) - s.lookback_bars) 1 := by
  unfold pyRange
  have hE : ((candles.length : ℤ) - s.lookback_bars - s.lookback_bars + 1 - 1).ediv 1 =
      (candles.length : ℤ) - s.lookback_bars - s.lookback_bars + 1 - 1 :=
    Int.ediv_one _
  rw [List.mem_range'_1, show ((1:ℕ):ℤ) = 1 from rfl, hE]
  omega

end TrendInd

/-- C8: in the lookback-confirmation pivot extraction, for every index with
at least `lookback_bars` candles on each side, a swing high is emitted at
`i` iff its high is ≥ every high within `lookback_bars` bars on both sides,
and a swing low is emitted iff its low is ≤ every low within
`lookback_bars` bars on both sides (both labels may coexist). -/
theorem claim_C8_swing_point_characterization
    (s : TrendInd.TrendIndicatorSettings) (candles : List Candle) (i : ℕ)
    (h1 : s.lookback_bars ≤ i) (h2 : i + s.lookback_bars < candles.length) :
    ((i, (candles.getD i defaultCandle).high, true) ∈
        TrendInd.detectSwingPoints s candles ↔
      ∀ j, 1 ≤ j → j ≤ s.lookback_bars →
        (candles.getD i defaultCandle).high ≥
          (candles.getD (i - j) defaultCandle).high ∧
        (candles.getD i defaultCandle).high ≥
          (candles.getD (i + j) defaultCandle).high) ∧
    ((i, (candles.getD i defaultCandle).low, false) ∈
        TrendInd.detectSwingPoints s candles ↔
      ∀ j, 1 ≤ j → j ≤ s.lookback_bars →
        (candles.getD i defaultCandle).low ≤
          (candles.getD (i - j) defaultCandle).low ∧
        (candles.getD i defaultCandle).low ≤
          (candles.getD (i + j) defaultCandle).low) := by
  have hrange := TrendInd.mem_pyRange_of_bounds s candles i h1 h2
  constructor
  · constructor
    · intro hmem
      simp only [TrendInd.detectSwingPoints, List.mem_flatMap] at hmem
      rcases hmem with ⟨i', hi', hchunk⟩
      rcases List.mem_append.1 hchunk with hc | hc
      · split_ifs at hc with hcond
        · simp only [List.mem_singleton, Prod.mk.injEq] at hc
          rcases hc with ⟨rfl, -, -⟩
          exact (TrendInd.swingHighB_iff s candles i).1 hcond
        · simp at hc
      · split_ifs at hc with hcond
        · simp only [List.mem_singleton, Prod.mk.injEq] at hc
          exact absurd hc.2.2 (by simp)
        · simp at hc
    · intro hprop
      simp only [TrendInd.detectSwingPoints, List.mem_flatMap]
      refine ⟨i, hrange, ?_⟩
      rw [if_pos ((TrendInd.swingHighB_iff s candles i).2 hprop)]
      exact List.mem_append.2 (Or.inl (List.mem_singleton.2 rfl))
  · constructor
    · intro hmem
      simp only [TrendInd.detectSwingPoints, List.mem_flatMap] at hmem
      rcases hmem with ⟨i', hi', hchunk⟩
      rcases List.mem_append.1 hchunk with hc | hc
      · split_ifs at hc with hcond
        · simp only [List.mem_singleton, Prod.mk.injEq] at hc
          exact absurd hc.2.2 (by simp)
        · simp at hc
      · split_ifs at hc with hcond
        · simp only [List.mem_singleton, Prod.mk.injEq] at hc
          rcases hc with ⟨rfl, -, -⟩
          exact (TrendInd.swingLowB_iff s candles i).1 hcond
        · simp at hc
    · intro hprop
      simp only [TrendInd.detectSwingPoints, List.mem_flatMap]
      refine ⟨i, hrange, ?_⟩
      refine List.mem_append.2 (Or.inr ?_)
      rw [if_pos ((TrendInd.swingLowB_iff s candles i).2 hprop)]
      exact List.mem_singleton.2 rfl

section C8Witness

attribute [local semireducible] Rat.add Rat.sub Rat.mul Rat.inv

/-- Witness for C8: index 1 of the three-candle fixture satisfies the bounds,
and the characterization certifies its swing-high membership. -/
theorem claim_C8_witness :
    c8Settings.lookback_bars ≤ 1 ∧ 1 + c8Settings.lookback_bars < c8Candles.length ∧
    (1, (c8Candles.getD 1 defaultCandle).high, true) ∈
      TrendInd.detectSwingPoints c8Settings c8Candles :=
  ⟨by decide, by decide,
   (claim_C8_swing_point_characterization c8Settings c8Candles 1 (by decide)
       (by decide)).1.mpr
     (by
       intro j hj1 hj2
       have hj : j = 1 := le_antisymm hj2 hj1
       subst hj
       decide)⟩

end C8Witness

namespace TrendDetector

open TrendVO

lemma dequeAppend_of_le (m : ℕ) (l : List Swing) (x : Swing)
    (h : l.length + 1 ≤ m) : dequeAppend m l x = l ++ [x] := by
  unfold dequeAppend
  rw [Nat.sub_eq_zero_of_le h, List.drop_zero]

lemma lastBase_concat (pre : List Swing) (sw : Swing) (anchor : Option ℚ) :
    lastBase (pre ++ [sw]) anchor = some sw.price := by
  unfold lastBase
  rw [List.getLast?_concat]

lemma lastType_concat (pre : List Swing) (sw : Swing) :
    lastType (pre ++ [sw]) = some sw.type := by
  unfold lastType
  rw [List.getLast?_concat]
  rfl

lemma registerSwing_append (s : SwingSettings) (anchor : Option ℚ)
    (pre : List Swing) (sw : Swing)
    (hsig : s.is_significant (lastBase pre anchor) sw.price = true)
    (halt : ∀ t, lastType pre = some t → t ≠ sw.type)
    (hlen : pre.length + 1 ≤ s.max_swings) :
    registerSwing s anchor pre sw = pre ++ [sw] := by
  simp only [registerSwing]
  cases hgl : pre.getLast? with
  | none =>
    simp only [lastBase, hgl] at hsig
    simp only [hgl]
    rw [if_neg (not_not_intro hsig)]
    exact dequeAppend_of_le _ _ _ hlen
  | some ls =>
    simp only [lastBase, hgl] at hsig
    have hne : ls.type ≠ sw.type := halt ls.type (by simp only [lastType, hgl]; rfl)
    simp only [hgl]
    rw [if_neg (not_not_intro hsig), if_neg hne]
    exact dequeAppend_of_le _ _ _ hlen

end TrendDetector

namespace TrendDetector

open TrendVO

lemma registerAll (s : SwingSettings) (anchor : Option ℚ) (l : List Swing) :
    ∀ pre : List Swing,
      sigChainB s (lastBase pre anchor) l = true →
      altChainB (lastType pre) l = true →
      pre.length + l.length ≤ s.max_swings →
      l.foldl (registerSwing s anchor) pre = pre ++ l := by
  induction l with
  | nil => intro pre _ _ _; simp
  | cons sw rest ih =>
    intro pre hsig halt hlen
    rw [sigChainB, Bool.and_eq_true] at hsig
    have halt' : ((match lastType pre with
        | some t => decide (t ≠ sw.type)
        | none => true) && altChainB (some sw.type) rest) = true := halt
    rw [Bool.and_eq_true] at halt'
    have hstep : registerSwing s anchor pre sw = pre ++ [sw] := by
      refine registerSwing_append s anchor pre sw hsig.1 ?_ ?_
      · intro t ht hcontra
        have hc := halt'.1
        rw [ht] at hc
        simp only [] at hc
        exact absurd hcontra (of_decide_eq_true hc)
      · simp only [List.length_cons] at hlen
        omega
    rw [List.foldl_cons, hstep]
    rw [ih (pre ++ [sw]) ?_ ?_ ?_]
    · simp
    · rw [lastBase_concat]
      exact hsig.2
    · rw [lastType_concat]
      exact halt'.2
    · simp only [List.length_append, List.length_singleton, List.length_cons,
        List.length_nil] at hlen ⊢
      omega

end TrendDetector

namespace TrendDetector

open TrendVO

lemma alt_count (l : List Swing) : ∀ prev : Option SwingType,
    altChainB prev l = true →
    (highsOf l).length + (lowsOf l).length = l.length ∧
    (highsOf l).length ≤ (lowsOf l).length + 1 ∧
    (lowsOf l).length ≤ (highsOf l).length + 1 ∧
    (prev = some .HIGH → (highsOf l).length ≤ (lowsOf l).length) ∧
    (prev = some .LOW → (lowsOf l).length ≤ (highsOf l).length) := by
  induction l with
  | nil =>
    intro prev _
    simp [highsOf, lowsOf]
  | cons sw rest ih =>
    intro prev h
    have htail : altChainB (some sw.type) rest = true := by
      cases prev with
      | none =>
        have h' : (true && altChainB (some sw.type) rest) = true := h
        simpa using h'
      | some t =>
        have h' : (decide (t ≠ sw.type) && altChainB (some sw.type) rest) = true := h
        rw [Bool.and_eq_true] at h'
        exact h'.2
    have hhead : ∀ t, prev = some t → t ≠ sw.type := by
      intro t ht
      subst ht
      have h' : (decide (t ≠ sw.type) && altChainB (some sw.type) rest) = true := h
      rw [Bool.and_eq_true] at h'
      exact of_decide_eq_true h'.1
    obtain ⟨hsum, hb1, hb2, hH, hL⟩ := ih (some sw.type) htail
    cases htype : sw.type with
    | HIGH =>
      have hHL : (highsOf rest).length ≤ (lowsOf rest).length := hH (by rw [htype])
      have hh : highsOf (sw :: rest) = sw :: highsOf rest := by
        simp [highsOf, List.filter_cons, htype]
      have hl : lowsOf (sw :: rest) = lowsOf rest := by
        simp [lowsOf, List.filter_cons, htype]
      rw [hh, hl]
      refine ⟨?_, ?_, ?_, ?_, ?_⟩
      · simp only [List.length_cons]
        omega
      · simp only [List.length_cons]
        omega
      · simp only [List.length_cons]
        omega
      · intro hp
        exact absurd htype.symm (hhead _ hp)
      · intro _
        simp only [List.length_cons]
        omega
    | LOW =>
      have hLH : (lowsOf rest).length ≤ (highsOf rest).length := hL (by rw [htype])
      have hh : highsOf (sw :: rest) = highsOf rest := by
        simp [highsOf, List.filter_cons, htype]
      have hl : lowsOf (sw :: rest) = sw :: lowsOf rest := by
        simp [lowsOf, List.filter_cons, htype]
      rw [hh, hl]
      refine ⟨?_, ?_, ?_, ?_, ?_⟩
      · simp only [List.length_cons]
        omega
      · simp only [List.length_cons]
        omega
      · simp only [List.length_cons]
        omega
      · intro _
        simp only [List.length_cons]
        omega
      · intro hp
        exact absurd htype.symm (hhead _ hp)

lemma chainIncB_pairwise (s : SwingSettings) :
    ∀ l : List Swing, chainIncB s l = true →
      l.Pairwise (fun a b => a.price < b.price)
  | [], _ => List.Pairwise.nil
  | [a], _ => by simp
  | a :: b :: rest, h => by
    have h' : (decide (a.price < b.price) && s.is_significant (some a.price) b.price &&
        chainIncB s (b :: rest)) = true := h
    rw [Bool.and_eq_true, Bool.and_eq_true] at h'
    have hab : a.price < b.price := of_decide_eq_true h'.1.1
    have IH := chainIncB_pairwise s (b :: rest) h'.2
    refine List.pairwise_cons.2 ⟨?_, IH⟩
    intro y hy
    rcases List.mem_cons.1 hy with rfl | hy'
    · exact hab
    · exact lt_trans hab ((List.pairwise_cons.1 IH).1 y hy')

lemma chainDecB_pairwise (s : SwingSettings) :
    ∀ l : List Swing, chainDecB s l = true →
      l.Pairwise (fun a b => b.price < a.price)
  | [], _ => List.Pairwise.nil
  | [a], _ => by simp
  | a :: b :: rest, h => by
    have h' : (decide (b.price < a.price) && s.is_significant (some a.price) b.price &&
        chainDecB s (b :: rest)) = true := h
    rw [Bool.and_eq_true, Bool.and_eq_true] at h'
    have hab : b.price < a.price := of_decide_eq_true h'.1.1
    have IH := chainDecB_pairwise s (b :: rest) h'.2
    refine List.pairwise_cons.2 ⟨?_, IH⟩
    intro y hy
    rcases List.mem_cons.1 hy with rfl | hy'
    · exact hab
    · exact lt_trans ((List.pairwise_cons.1 IH).1 y hy') hab

lemma lastTwo_rel (R : Swing → Swing → Prop) (l : List Swing)
    (hp : l.Pairwise R) (hl : 2 ≤ l.length) :
    R ((l.drop (l.length - 2)).headD defaultSwing)
      ((l.drop (l.length - 2)).getLastD defaultSwing) := by
  have hlen2 : (l.drop (l.length - 2)).length = 2 := by
    rw [List.length_drop]
    omega
  obtain ⟨a, b, hab⟩ := List.length_eq_two.1 hlen2
  have hdp : (l.drop (l.length - 2)).Pairwise R := hp.sublist (List.drop_sublist _ _)
  rw [hab] at hdp ⊢
  exact (List.pairwise_cons.1 hdp).1 b (List.mem_singleton.2 rfl)

end TrendDetector

namespace TrendDetector

open TrendVO

lemma classifyTrend_up (s : SwingSettings) (mem : List Swing)
    (h2h : 2 ≤ (highsOf mem).length) (h2l : 2 ≤ (lowsOf mem).length)
    (hh : (((highsOf mem).drop ((highsOf mem).length - 2)).headD defaultSwing).price <
      (((highsOf mem).drop ((highsOf mem).length - 2)).getLastD defaultSwing).price)
    (hl : (((lowsOf mem).drop ((lowsOf mem).length - 2)).headD defaultSwing).price <
      (((lowsOf mem).drop ((lowsOf mem).length - 2)).getLastD defaultSwing).price) :
    classifyTrend s mem = .UP := by
  simp only [highsOf, lowsOf] at h2h h2l hh hl
  simp only [classifyTrend]
  rw [if_pos ⟨h2h, h2l⟩, if_pos ⟨hh, hl⟩]

lemma classifyTrend_down (s : SwingSettings) (mem : List Swing)
    (h2h : 2 ≤ (highsOf mem).length) (h2l : 2 ≤ (lowsOf mem).length)
    (hh : (((highsOf mem).drop ((highsOf mem).length - 2)).getLastD defaultSwing).price <
      (((highsOf mem).drop ((highsOf mem).length - 2)).headD defaultSwing).price)
    (hl : (((lowsOf mem).drop ((lowsOf mem).length - 2)).getLastD defaultSwing).price <
      (((lowsOf mem).drop ((lowsOf mem).length - 2)).headD defaultSwing).price) :
    classifyTrend s mem = .DOWN := by
  simp only [highsOf, lowsOf] at h2h h2l hh hl
  simp only [classifyTrend]
  rw [if_pos ⟨h2h, h2l⟩, if_neg (fun hc => absurd hc.1 (lt_asymm hh)),
    if_pos ⟨hh, hl⟩]

lemma conf_gt_half (s : SwingSettings) (mem : List Swing) (trend : TrendDirection)
    (hmax : s.max_swings = 12) (ht : ¬ trend = TrendDirection.undefined)
    (h4 : 4 ≤ mem.length) :
    1/2 < computeConfidence s mem trend := by
  simp only [computeConfidence, hmax]
  rw [if_neg ht]
  have hc : (4:ℚ) ≤ (mem.length : ℚ) := by exact_mod_cast h4
  have hmx : ((max 12 1 : ℕ) : ℚ) = 12 := by norm_num
  rw [hmx]
  have hd : (1:ℚ)/3 ≤ min ((mem.length : ℚ)/12) 1 := by
    refine le_min ?_ (by norm_num)
    linarith
  refine lt_min (by norm_num) (by linarith)

end TrendDetector

/-- C4: for any candle sequence and threshold whose detected zigzag swings are
pairwise-significant, strictly alternating, and number between 4 and the
default memory capacity 12, strictly rising successive swing highs and lows
(each a significant move past the prior) make `TrendDetector.analyze` on a
fresh detector report trend UP with confidence above 0.5; strictly falling
highs and lows symmetrically yield DOWN with confidence above 0.5. -/
theorem claim_C4_monotone_swing_trend (p : ℚ) (candles : List Candle)
    (hsig : TrendDetector.sigChainB ⟨12, none, p⟩ ((candles.head?).map Candle.close)
        (TrendDetector.detectSwings ⟨12, none, p⟩ candles) = true)
    (halt : TrendDetector.altChainB none
        (TrendDetector.detectSwings ⟨12, none, p⟩ candles) = true)
    (h4 : 4 ≤ (TrendDetector.detectSwings ⟨12, none, p⟩ candles).length)
    (h12 : (TrendDetector.detectSwings ⟨12, none, p⟩ candles).length ≤ 12) :
    (TrendDetector.risingB ⟨12, none, p⟩
        (TrendDetector.detectSwings ⟨12, none, p⟩ candles) = true →
      (TrendDetector.analyze ⟨12, none, p⟩ [] candles).1.trend =
          TrendVO.TrendDirection.UP ∧
      1/2 < (TrendDetector.analyze ⟨12, none, p⟩ [] candles).1.confidence) ∧
    (TrendDetector.fallingB ⟨12, none, p⟩
        (TrendDetector.detectSwings ⟨12, none, p⟩ candles) = true →
      (TrendDetector.analyze ⟨12, none, p⟩ [] candles).1.trend =
          TrendVO.TrendDirection.DOWN ∧
      1/2 < (TrendDetector.analyze ⟨12, none, p⟩ [] candles).1.confidence) := by
  have hreg : (TrendDetector.detectSwings ⟨12, none, p⟩ candles).foldl
      (TrendDetector.registerSwing ⟨12, none, p⟩ ((candles.head?).map Candle.close)) [] =
      TrendDetector.detectSwings ⟨12, none, p⟩ candles := by
    have := TrendDetector.registerAll ⟨12, none, p⟩ ((candles.head?).map Candle.close)
      (TrendDetector.detectSwings ⟨12, none, p⟩ candles) [] hsig halt
      (by simpa using h12)
    simpa using this
  obtain ⟨hsum, hb1, hb2, -, -⟩ :=
    TrendDetector.alt_count (TrendDetector.detectSwings ⟨12, none, p⟩ candles) none halt
  have h2h : 2 ≤ (TrendDetector.highsOf
      (TrendDetector.detectSwings ⟨12, none, p⟩ candles)).length := by omega
  have h2l : 2 ≤ (TrendDetector.lowsOf
      (TrendDetector.detectSwings ⟨12, none, p⟩ candles)).length := by omega
  constructor
  · intro hrise
    rw [TrendDetector.risingB, Bool.and_eq_true] at hrise
    have hhh := TrendDetector.lastTwo_rel (fun a b => a.price < b.price) _
      (TrendDetector.chainIncB_pairwise ⟨12, none, p⟩ _ hrise.1) h2h
    have hll := TrendDetector.lastTwo_rel (fun a b => a.price < b.price) _
      (TrendDetector.chainIncB_pairwise ⟨12, none, p⟩ _ hrise.2) h2l
    have hup : TrendDetector.classifyTrend ⟨12, none, p⟩
        (TrendDetector.detectSwings ⟨12, none, p⟩ candles) = .UP :=
      TrendDetector.classifyTrend_up _ _ h2h h2l hhh hll
    simp only [TrendDetector.analyze, hreg, hup]
    exact ⟨trivial, TrendDetector.conf_gt_half _ _ _ rfl (by decide) h4⟩
  · intro hfall
    rw [TrendDetector.fallingB, Bool.and_eq_true] at hfall
    have hhh := TrendDetector.lastTwo_rel (fun a b => b.price < a.price) _
      (TrendDetector.chainDecB_pairwise ⟨12, none, p⟩ _ hfall.1) h2h
    have hll := TrendDetector.lastTwo_rel (fun a b => b.price < a.price) _
      (TrendDetector.chainDecB_pairwise ⟨12, none, p⟩ _ hfall.2) h2l
    have hdown : TrendDetector.classifyTrend ⟨12, none, p⟩
        (TrendDetector.detectSwings ⟨12, none, p⟩ candles) = .DOWN :=
      TrendDetector.classifyTrend_down _ _ h2h h2l hhh hll
    simp only [TrendDetector.analyze, hreg, hdown]
    exact ⟨trivial, TrendDetector.conf_gt_half _ _ _ rfl (by decide) h4⟩

section C4Witness

attribute [local semireducible] Rat.add Rat.sub Rat.mul Rat.inv

/-- Witness for C4: the rising fixture satisfies every hypothesis and yields
UP with confidence above one half; the falling fixture yields DOWN. -/
theorem claim_C4_witness :
    ((TrendDetector.analyze ⟨12, none, 5/1000⟩ [] upCandles).1.trend =
        TrendVO.TrendDirection.UP ∧
      1/2 < (TrendDetector.analyze ⟨12, none, 5/1000⟩ [] upCandles).1.confidence) ∧
    ((TrendDetector.analyze ⟨12, none, 5/1000⟩ [] downCandles).1.trend =
        TrendVO.TrendDirection.DOWN ∧
      1/2 < (TrendDetector.analyze ⟨12, none, 5/1000⟩ [] downCandles).1.confidence) :=
  ⟨(claim_C4_monotone_swing_trend (5/1000) upCandles (by decide) (by decide)
      (by decide) (by decide)).1 (by decide),
   (claim_C4_monotone_swing_trend (5/1000) downCandles (by decide) (by decide)
      (by decide) (by decide)).2 (by decide)⟩

end C4Witness


namespace Cache

lemma decDigits_ne_nil (n : ℕ) : decDigits n ≠ [] := by
  unfold decDigits
  split_ifs with h
  · simp
  · simp [Nat.digits_ne_nil_iff_ne_zero.mpr h]

lemma map_digit_all_isDigit (l : List ℕ) :
    ((l.map Ch.digit).all Ch.isDigit) = true := by
  rw [List.all_eq_true]
  intro x hx
  rcases List.mem_map.1 hx with ⟨d, _, rfl⟩
  rfl

lemma toDigit_digit_map (l : List ℕ) : (l.map Ch.digit).map Ch.toDigit = l := by
  rw [List.map_map]
  have h : Ch.toDigit ∘ Ch.digit = id := rfl
  rw [h, List.map_id]

lemma valBE_decDigits (n : ℕ) : valBE (decDigits n) = n := by
  unfold valBE decDigits
  split_ifs with h
  · subst h
    rfl
  · rw [List.reverse_reverse, Nat.ofDigits_digits]

lemma ofDigits_replicate_zero (k : ℕ) :
    Nat.ofDigits 10 (List.replicate k (0:ℕ)) = 0 := by
  induction k with
  | zero => rfl
  | succ k ih =>
    rw [List.replicate_succ, Nat.ofDigits_cons, ih]

lemma valBE_zeros_append (k : ℕ) (l : List ℕ) :
    valBE (List.replicate k 0 ++ l) = valBE l := by
  unfold valBE
  rw [List.reverse_append, List.reverse_replicate]
  rw [Nat.ofDigits_append, ofDigits_replicate_zero]
  simp

lemma valBE_cons_zero (l : List ℕ) : valBE (0 :: l) = valBE l := by
  unfold valBE
  rw [List.reverse_cons, Nat.ofDigits_append]
  simp [Nat.ofDigits]

lemma takeWhile_digit_append (ds : List ℕ) (rest : List Ch)
    (h : ∀ c, rest.head? = some c → c.isDigit = false) :
    (ds.map Ch.digit ++ rest).takeWhile Ch.isDigit = ds.map Ch.digit := by
  induction ds with
  | nil =>
    simp only [List.map_nil, List.nil_append]
    cases rest with
    | nil => rfl
    | cons x r =>
      have hx := h x rfl
      rw [List.takeWhile_cons, hx]
      simp
  | cons d ds ih =>
    simp only [List.map_cons, List.cons_append]
    rw [List.takeWhile_cons]
    have hd : Ch.isDigit (Ch.digit d) = true := rfl
    rw [hd]
    simp only [if_true]
    rw [ih]

lemma dropWhile_digit_append (ds : List ℕ) (rest : List Ch)
    (h : ∀ c, rest.head? = some c → c.isDigit = false) :
    (ds.map Ch.digit ++ rest).dropWhile Ch.isDigit = rest := by
  induction ds with
  | nil =>
    simp only [List.map_nil, List.nil_append]
    cases rest with
    | nil => rfl
    | cons x r =>
      have hx := h x rfl
      rw [List.dropWhile_cons, hx]
      simp
  | cons d ds ih =>
    simp only [List.map_cons, List.cons_append]
    rw [List.dropWhile_cons]
    have hd : Ch.isDigit (Ch.digit d) = true := rfl
    rw [hd]
    simp only [if_true]
    rw [ih]

lemma span_digit_append (ds : List ℕ) (rest : List Ch)
    (h : ∀ c, rest.head? = some c → c.isDigit = false) :
    (ds.map Ch.digit ++ rest).span Ch.isDigit = (ds.map Ch.digit, rest) := by
  rw [List.span_eq_take_drop, takeWhile_digit_append ds rest h,
    dropWhile_digit_append ds rest h]

lemma parseExpSuffix_render (k : ℤ) :
    parseExpSuffix ((Ch.upperE :: (if 0 ≤ k then [Ch.plus] else [Ch.hyphen])) ++
      (decDigits k.natAbs).map Ch.digit) = some k := by
  split_ifs with hk
  · simp only [List.cons_append, List.singleton_append, parseExpSuffix, List.nil_append]
    rw [if_pos ⟨by simp [decDigits_ne_nil], map_digit_all_isDigit _⟩]
    rw [toDigit_digit_map, valBE_decDigits]
    simp only [Bool.false_eq_true, if_false, Option.some.injEq]
    omega
  · simp only [List.cons_append, List.singleton_append, parseExpSuffix, List.nil_append]
    rw [if_pos ⟨by simp [decDigits_ne_nil], map_digit_all_isDigit _⟩]
    rw [toDigit_digit_map, valBE_decDigits]
    simp only [if_true, Option.some.injEq]
    omega

lemma parseUnsigned_int_frac (ip fp : List ℕ) (suf : List Ch)
    (hor : ¬(ip = [] ∧ fp = []))
    (hsuf : ∀ c, suf.head? = some c → c.isDigit = false)
    (ev : ℤ) (hev : parseExpSuffix suf = some ev) :
    parseUnsigned (ip.map Ch.digit ++ Ch.dot :: (fp.map Ch.digit ++ suf)) =
      some (valBE (ip ++ fp), ev - fp.length) := by
  simp only [parseUnsigned]
  rw [span_digit_append ip (Ch.dot :: (fp.map Ch.digit ++ suf))
    (fun c hc => by cases hc; rfl)]
  dsimp only
  rw [span_digit_append fp suf hsuf]
  rw [if_neg (by simpa using hor)]
  rw [hev]
  rw [Option.some.injEq, ← List.map_append, Prod.mk.injEq]
  constructor
  · rw [toDigit_digit_map]
  · rw [List.length_map]

lemma parseUnsigned_int_nil (ip : List ℕ) (hip : ip ≠ []) :
    parseUnsigned (ip.map Ch.digit) = some (valBE ip, 0) := by
  have hsp := span_digit_append ip [] (fun c hc => by exact Option.noConfusion hc)
  rw [List.append_nil] at hsp
  simp only [parseUnsigned]
  rw [hsp]
  dsimp only
  rw [if_neg (by simpa using hip)]
  rw [toDigit_digit_map]
  rfl

lemma parseUnsigned_int_exp (ip : List ℕ) (hip : ip ≠ []) (rest : List Ch)
    (ev : ℤ) (hev : parseExpSuffix (Ch.upperE :: rest) = some ev) :
    parseUnsigned (ip.map Ch.digit ++ Ch.upperE :: rest) = some (valBE ip, ev) := by
  simp only [parseUnsigned]
  rw [span_digit_append ip (Ch.upperE :: rest) (fun c hc => by cases hc; rfl)]
  dsimp only
  rw [if_neg (by simpa using hip)]
  rw [hev]
  rw [toDigit_digit_map]

lemma parseUnsigned_renderUnsigned (c : ℕ) (e : ℤ) :
    parseUnsigned (renderUnsigned c e) = some (c, e) := by
  have hL : 1 ≤ (decDigits c).length := by
    cases h : decDigits c with
    | nil => exact absurd h (decDigits_ne_nil c)
    | cons a l => simp
  simp only [renderUnsigned]
  by_cases hpos : e ≤ 0 ∧ e + ((decDigits c).length : ℤ) > -6
  · rw [if_pos hpos]
    by_cases h1 : e + ((decDigits c).length : ℤ) ≤ 0
    · rw [if_pos h1, if_pos h1, if_pos rfl]
      have H := parseUnsigned_int_frac [0]
        (List.replicate (-(e + ((decDigits c).length : ℤ))).toNat 0 ++ decDigits c) []
        (by simp) (fun ch hch => Option.noConfusion hch) 0 rfl
      simp only [List.append_nil] at H ⊢
      rw [H, Option.some.injEq, Prod.mk.injEq]
      constructor
      · rw [List.singleton_append, valBE_cons_zero, valBE_zeros_append, valBE_decDigits]
      · rw [List.length_append, List.length_replicate]
        omega
    · push_neg at h1
      have hn1 : ¬(e + ((decDigits c).length : ℤ) ≤ 0) := by omega
      by_cases h2 : e + ((decDigits c).length : ℤ) ≥ ((decDigits c).length : ℤ)
      · have he : e = 0 := by omega
        rw [if_neg hn1, if_neg hn1, if_pos h2, if_pos h2, if_pos rfl]
        simp only [List.append_nil]
        rw [parseUnsigned_int_nil _ (by simp [decDigits_ne_nil])]
        rw [Option.some.injEq, Prod.mk.injEq]
        constructor
        · rw [show ((e + ((decDigits c).length:ℤ)) - ((decDigits c).length:ℤ)).toNat = 0
            from by omega]
          rw [List.replicate_zero, List.append_nil, valBE_decDigits]
        · omega
      · push_neg at h2
        have hn2 : ¬(e + ((decDigits c).length : ℤ) ≥ ((decDigits c).length : ℤ)) := by
          omega
        have htake : ((decDigits c).take (e + ((decDigits c).length : ℤ)).toNat) ≠ [] := by
          have hlen : 0 < ((decDigits c).take (e + ((decDigits c).length : ℤ)).toNat).length := by
            rw [List.length_take]
            omega
          intro hcon
          rw [hcon] at hlen
          simp at hlen
        rw [if_neg hn1, if_neg hn1, if_neg hn2, if_neg hn2, if_pos rfl]
        have H := parseUnsigned_int_frac
          ((decDigits c).take (e + ((decDigits c).length : ℤ)).toNat)
          ((decDigits c).drop (e + ((decDigits c).length : ℤ)).toNat) []
          (fun hcon => htake hcon.1) (fun ch hch => Option.noConfusion hch) 0 rfl
        simp only [List.append_nil] at H ⊢
        rw [H, Option.some.injEq, Prod.mk.injEq]
        constructor
        · rw [List.take_append_drop, valBE_decDigits]
        · rw [List.length_drop]
          omega
  · rw [if_neg hpos]
    have hne1 : ¬(e + ((decDigits c).length : ℤ) = 1) := by
      intro heq
      exact hpos ⟨by omega, by omega⟩
    have hz1 : ¬((1:ℤ) ≤ 0) := by omega
    by_cases hS : (1:ℤ) ≥ ((decDigits c).length : ℤ)
    · have hL1 : (decDigits c).length = 1 := by omega
      rw [if_neg hz1, if_neg hz1, if_pos hS, if_pos hS, if_neg hne1]
      have hev := parseExpSuffix_render (e + ((decDigits c).length : ℤ) - 1)
      rw [List.cons_append] at hev
      have H := parseUnsigned_int_exp
        (decDigits c ++ List.replicate ((1:ℤ) - ((decDigits c).length : ℤ)).toNat 0)
        (by simp [decDigits_ne_nil]) _ _ hev
      simp only [List.append_nil, List.cons_append]
      rw [H]
      rw [Option.some.injEq, Prod.mk.injEq]
      constructor
      · rw [hL1]
        rw [show ((1:ℤ) - ((1:ℕ):ℤ)).toNat = 0 from rfl]
        rw [List.replicate_zero, List.append_nil, valBE_decDigits]
      · omega
    · push_neg at hS
      have hnS : ¬((1:ℤ) ≥ ((decDigits c).length : ℤ)) := by omega
      have htake : ((decDigits c).take (1:ℤ).toNat) ≠ [] := by
        have hlen : 0 < ((decDigits c).take (1:ℤ).toNat).length := by
          rw [List.length_take]
          omega
        intro hcon
        rw [hcon] at hlen
        simp at hlen
      rw [if_neg hz1, if_neg hz1, if_neg hnS, if_neg hnS, if_neg hne1]
      have hev := parseExpSuffix_render (e + ((decDigits c).length : ℤ) - 1)
      have H := parseUnsigned_int_frac
        ((decDigits c).take (1:ℤ).toNat) ((decDigits c).drop (1:ℤ).toNat)
        ((Ch.upperE :: (if 0 ≤ e + ((decDigits c).length : ℤ) - 1 then [Ch.plus]
            else [Ch.hyphen])) ++
          (decDigits (e + ((decDigits c).length : ℤ) - 1).natAbs).map Ch.digit)
        (fun hcon => htake hcon.1) (fun ch hch => by cases hch; rfl)
        (e + ((decDigits c).length : ℤ) - 1) hev
      simp only [List.append_assoc, List.cons_append] at H ⊢
      rw [H, Option.some.injEq, Prod.mk.injEq]
      constructor
      · rw [List.take_append_drop, valBE_decDigits]
      · rw [List.length_drop]
        omega

end Cache

namespace Cache

lemma renderUnsigned_head (c : ℕ) (e : ℤ) :
    ∃ k rest, renderUnsigned c e = Ch.digit k :: rest := by
  obtain ⟨d, ds', hds⟩ : ∃ d ds', decDigits c = d :: ds' := by
    cases h : decDigits c with
    | nil => exact absurd h (decDigits_ne_nil c)
    | cons a l => exact ⟨a, l, rfl⟩
  have hL : 1 ≤ (decDigits c).length := by rw [hds]; simp
  simp only [renderUnsigned]
  by_cases hpos : e ≤ 0 ∧ e + ((decDigits c).length : ℤ) > -6
  · rw [if_pos hpos]
    by_cases h1 : e + ((decDigits c).length : ℤ) ≤ 0
    · rw [if_pos h1]
      exact ⟨0, _, by
        simp only [List.map_cons, List.map_nil, List.singleton_append, List.cons_append]
        rfl⟩
    · by_cases h2 : e + ((decDigits c).length : ℤ) ≥ ((decDigits c).length : ℤ)
      · rw [if_neg h1, if_pos h2, hds]
        exact ⟨d, _, by
          simp only [List.map_cons, List.map_nil, List.cons_append]
          rfl⟩
      · rw [if_neg h1, if_neg h2]
        obtain ⟨m, hm⟩ := Nat.exists_eq_succ_of_ne_zero
          (show (e + ((decDigits c).length : ℤ)).toNat ≠ 0 from by omega)
        rw [hm, hds, List.take_succ_cons]
        exact ⟨d, _, by
          simp only [List.map_cons, List.map_nil, List.cons_append]
          rfl⟩
  · rw [if_neg hpos]
    have hz1 : ¬((1:ℤ) ≤ 0) := by omega
    by_cases hS : (1:ℤ) ≥ ((decDigits c).length : ℤ)
    · rw [if_neg hz1, if_pos hS, hds]
      exact ⟨d, _, by
        simp only [List.map_cons, List.map_nil, List.cons_append]
        rfl⟩
    · rw [if_neg hz1, if_neg hS]
      rw [show ((1:ℤ)).toNat = 1 from rfl, hds, List.take_succ_cons]
      exact ⟨d, _, by
        simp only [List.map_cons, List.map_nil, List.cons_append]
        rfl⟩

end Cache

namespace Cache

lemma parseDec_renderDec (d : Dec) : parseDec (renderDec d) = some d := by
  obtain ⟨s, c, e⟩ := d
  cases s with
  | true =>
    show parseDec ([Ch.hyphen] ++ renderUnsigned c e) = _
    rw [List.singleton_append]
    simp only [parseDec]
    rw [parseUnsigned_renderUnsigned]
    rfl
  | false =>
    show parseDec ([] ++ renderUnsigned c e) = _
    rw [List.nil_append]
    obtain ⟨k, rest, hk⟩ := renderUnsigned_head c e
    rw [hk]
    simp only [parseDec]
    rw [← hk, parseUnsigned_renderUnsigned]
    rfl

end Cache

namespace Cache

lemma decDigits_len_le (w n : ℕ) (hw : 1 ≤ w) (hn : n < 10 ^ w) :
    (decDigits n).length ≤ w := by
  unfold decDigits
  split_ifs with h
  · simpa using hw
  · rw [List.length_reverse]
    have hlen := Nat.digits_len 10 n (by norm_num) h
    have hpow := Nat.pow_log_le_self 10 h
    by_contra hgt
    push_neg at hgt
    have hmono : 10 ^ w ≤ 10 ^ Nat.log 10 n :=
      Nat.pow_le_pow_right (by norm_num) (by omega)
    omega

lemma take_len_append (l l2 : List Ch) (w : ℕ) (h : l.length = w) :
    (l ++ l2).take w = l := by
  subst h
  exact List.take_left l l2

lemma drop_len_append (l l2 : List Ch) (w : ℕ) (h : l.length = w) :
    (l ++ l2).drop w = l2 := by
  subst h
  exact List.drop_left l l2

lemma readFixed_pad (w n : ℕ) (rest : List Ch) (hw : 1 ≤ w) (hn : n < 10 ^ w) :
    readFixed w ((padDigits w n).map Ch.digit ++ rest) = some (n, rest) := by
  have hlen : ((padDigits w n).map Ch.digit).length = w := by
    rw [List.length_map]
    unfold padDigits
    rw [List.length_append, List.length_replicate]
    have := decDigits_len_le w n hw hn
    omega
  simp only [readFixed]
  rw [take_len_append _ rest w hlen, drop_len_append _ rest w hlen]
  rw [if_pos ⟨hlen, map_digit_all_isDigit _⟩]
  rw [toDigit_digit_map]
  unfold padDigits
  rw [valBE_zeros_append, valBE_decDigits]

lemma readSep_cons (c : Ch) (rest : List Ch) : readSep c (c :: rest) = some rest := by
  simp [readSep]

end Cache

namespace Cache

lemma readFixed_pad_nil (w n : ℕ) (hw : 1 ≤ w) (hn : n < 10 ^ w) :
    readFixed w ((padDigits w n).map Ch.digit) = some (n, []) := by
  have h := readFixed_pad w n [] hw hn
  rwa [List.append_nil] at h

lemma parseDateTime_render (t : DateTime) (hv : t.Valid) :
    parseDateTime (renderDateTime t) = some t := by
  obtain ⟨y, mo, dd, hh, mi, ss, mic⟩ := t
  obtain ⟨h1, h2, h3, h4, h5, h6, h7, h8, h9, h10⟩ := hv
  dsimp only at h1 h2 h3 h4 h5 h6 h7 h8 h9 h10
  have e4 : (10:ℕ)^4 = 10000 := by norm_num
  have e2 : (10:ℕ)^2 = 100 := by norm_num
  have e6 : (10:ℕ)^6 = 1000000 := by norm_num
  by_cases hmic : mic ≠ 0
  · simp only [renderDateTime, if_pos hmic, List.append_assoc, List.singleton_append,
      List.cons_append, List.nil_append]
    simp only [parseDateTime]
    rw [readFixed_pad 4 y _ (by norm_num) (by omega)]
    dsimp only
    rw [readSep_cons]
    dsimp only
    rw [readFixed_pad 2 mo _ (by norm_num) (by omega)]
    dsimp only
    rw [readSep_cons]
    dsimp only
    rw [readFixed_pad 2 dd _ (by norm_num) (by omega)]
    dsimp only
    rw [readSep_cons]
    dsimp only
    rw [readFixed_pad 2 hh _ (by norm_num) (by omega)]
    dsimp only
    rw [readSep_cons]
    dsimp only
    rw [readFixed_pad 2 mi _ (by norm_num) (by omega)]
    dsimp only
    rw [readSep_cons]
    dsimp only
    rw [readFixed_pad 2 ss _ (by norm_num) (by omega)]
    dsimp only
    rw [readFixed_pad_nil 6 mic (by norm_num) (by omega)]
  · push_neg at hmic
    subst hmic
    simp only [renderDateTime, ne_eq, not_true_eq_false, if_false, List.append_nil,
      List.append_assoc, List.singleton_append, List.cons_append, List.nil_append]
    simp only [parseDateTime]
    rw [readFixed_pad 4 y _ (by norm_num) (by omega)]
    dsimp only
    rw [readSep_cons]
    dsimp only
    rw [readFixed_pad 2 mo _ (by norm_num) (by omega)]
    dsimp only
    rw [readSep_cons]
    dsimp only
    rw [readFixed_pad 2 dd _ (by norm_num) (by omega)]
    dsimp only
    rw [readSep_cons]
    dsimp only
    rw [readFixed_pad 2 hh _ (by norm_num) (by omega)]
    dsimp only
    rw [readSep_cons]
    dsimp only
    rw [readFixed_pad 2 mi _ (by norm_num) (by omega)]
    dsimp only
    rw [readSep_cons]
    dsimp only
    rw [readFixed_pad_nil 2 ss (by norm_num) (by omega)]

end Cache

namespace Cache

lemma ofValue_value (tf : Timeframe) : Timeframe.ofValue tf.value = some tf := by
  cases tf <;> rfl

end Cache

/-- C9: for every candle whose timestamp satisfies the `datetime` constructor
range constraints, deserializing the cache serialization returns the candle
unchanged: the exact `Decimal` representation (sign, coefficient, exponent) of
every price and volume and every timestamp field survive the round trip. -/
theorem claim_C9_cache_roundtrip (c : Cache.CacheCandle)
    (hv : c.timestamp.Valid) :
    Cache.deserializeCandle (Cache.serializeCandle c) = some c := by
  obtain ⟨sym, tf, ts, o, h, l, cl, v⟩ := c
  dsimp only at hv
  simp only [Cache.serializeCandle, Cache.deserializeCandle]
  rw [Cache.ofValue_value, Cache.parseDateTime_render ts hv, Cache.parseDec_renderDec,
    Cache.parseDec_renderDec, Cache.parseDec_renderDec, Cache.parseDec_renderDec,
    Cache.parseDec_renderDec]

/-- Witness for C9: the concrete fixture candle has a valid timestamp and
round-trips to itself. -/
theorem claim_C9_witness :
    c9Candle.timestamp.Valid ∧
    Cache.deserializeCandle (Cache.serializeCandle c9Candle) = some c9Candle :=
  ⟨by decide, claim_C9_cache_roundtrip c9Candle (by decide)⟩
